import Mathlib

/-!
Verification development for the navican-web-app CAN/CANopen ingestion and
decode pipeline.  Each definition is a shallow embedding of one function of
the repository (Go backend, TypeScript frontend); machine integers are
modelled as `Nat`/`Int` with explicit wrap-around where the source casts,
byte buffers as `List Nat` (each element a byte value), and fallible or
panicking code as `Except`/`Option`.
-/

/-! ## CANopen protocol classifier

Embedding of the SQL `CASE` expressions built by
`ClickHouseAPI.GetCANopenMessages` (backend/internal/api/clickhouse.go):
one `CASE` computes `message_type`, the second computes `node_id`
(cast to `UInt8`, modelled by `% 256`).
-/

/-- `message_type` CASE of `GetCANopenMessages`: maps a CAN identifier to its
CANopen message category string. -/
def getCANopenMessagesMessageType (canId : Nat) : String :=
  if canId = 0x000 then "NMT"
  else if canId = 0x080 then "SYNC"
  else if 0x081 ≤ canId ∧ canId ≤ 0x0FF then "EMCY"
  else if 0x180 ≤ canId ∧ canId ≤ 0x1FF then "TPDO1"
  else if 0x200 ≤ canId ∧ canId ≤ 0x27F then "RPDO1"
  else if 0x280 ≤ canId ∧ canId ≤ 0x2FF then "TPDO2"
  else if 0x300 ≤ canId ∧ canId ≤ 0x37F then "RPDO2"
  else if 0x380 ≤ canId ∧ canId ≤ 0x3FF then "TPDO3"
  else if 0x400 ≤ canId ∧ canId ≤ 0x47F then "RPDO3"
  else if 0x480 ≤ canId ∧ canId ≤ 0x4FF then "TPDO4"
  else if 0x500 ≤ canId ∧ canId ≤ 0x57F then "RPDO4"
  else if 0x580 ≤ canId ∧ canId ≤ 0x5FF then "SDO_TX"
  else if 0x600 ≤ canId ∧ canId ≤ 0x67F then "SDO_RX"
  else if 0x700 ≤ canId ∧ canId ≤ 0x77F then "HEARTBEAT"
  else "UNKNOWN"

/-- `node_id` CASE of `GetCANopenMessages` (`CAST(... AS UInt8)`). -/
def getCANopenMessagesNodeId (canId : Nat) : Nat :=
  (if canId = 0x000 ∨ canId = 0x080 then 0
   else if 0x081 ≤ canId ∧ canId ≤ 0x0FF then canId - 0x080
   else if 0x180 ≤ canId ∧ canId ≤ 0x1FF then canId - 0x180 + 1
   else if 0x200 ≤ canId ∧ canId ≤ 0x27F then canId - 0x200 + 1
   else if 0x280 ≤ canId ∧ canId ≤ 0x2FF then canId - 0x280 + 1
   else if 0x300 ≤ canId ∧ canId ≤ 0x37F then canId - 0x300 + 1
   else if 0x380 ≤ canId ∧ canId ≤ 0x3FF then canId - 0x380 + 1
   else if 0x400 ≤ canId ∧ canId ≤ 0x47F then canId - 0x400 + 1
   else if 0x480 ≤ canId ∧ canId ≤ 0x4FF then canId - 0x480 + 1
   else if 0x500 ≤ canId ∧ canId ≤ 0x57F then canId - 0x500 + 1
   else if 0x580 ≤ canId ∧ canId ≤ 0x5FF then canId - 0x580 + 1
   else if 0x600 ≤ canId ∧ canId ≤ 0x67F then canId - 0x600 + 1
   else if 0x700 ≤ canId ∧ canId ≤ 0x77F then canId - 0x700 + 1
   else 0) % 256

/-- The classifier `classify(identifier) → (category, nodeId)` realised by
`GetCANopenMessages`. -/
def classifyCANopen (canId : Nat) : String × Nat :=
  (getCANopenMessagesMessageType canId, getCANopenMessagesNodeId canId)

/-! Spec-side classifier table, written from the words of the specification
(§4.5) for comparison with the code.  The eight PDO ranges are expressed as
the spec phrases them: eight contiguous 128-ID blocks starting at `0x180`,
alternating TPDO/RPDO 1..4, with node = id − rangeBase + 1.  The HEARTBEAT
node formula is the amended one (`id − 0x700 + 1`): the spec's original
`id − 0x700` is refuted below. -/

/-- Category name of the `k`-th 128-ID PDO block after `0x180`
(k even: TPDO, k odd: RPDO; PDO number `k / 2 + 1`). -/
def pdoBlockCategory (k : Nat) : String :=
  (if k % 2 = 0 then "TPDO" else "RPDO") ++ Nat.repr (k / 2 + 1)

/-- Claimed classifier category, from the spec's words (amended claim C1). -/
def claimC1Category (id : Nat) : String :=
  if id = 0x000 then "NMT"
  else if id = 0x080 then "SYNC"
  else if 0x081 ≤ id ∧ id ≤ 0x0FF then "EMCY"
  else if 0x180 ≤ id ∧ id < 0x180 + 8 * 128 then pdoBlockCategory ((id - 0x180) / 128)
  else if 0x580 ≤ id ∧ id ≤ 0x5FF then "SDO_TX"
  else if 0x600 ≤ id ∧ id ≤ 0x67F then "SDO_RX"
  else if 0x700 ≤ id ∧ id ≤ 0x77F then "HEARTBEAT"
  else "UNKNOWN"

/-- Claimed classifier node id, from the spec's words, with the single
amendment forced by the code: HEARTBEAT node is `id − 0x700 + 1`, not
`id − 0x700`. -/
def claimC1NodeId (id : Nat) : Nat :=
  if id = 0x000 then 0
  else if id = 0x080 then 0
  else if 0x081 ≤ id ∧ id ≤ 0x0FF then id - 0x080
  else if 0x180 ≤ id ∧ id < 0x180 + 8 * 128 then id - (0x180 + 128 * ((id - 0x180) / 128)) + 1
  else if 0x580 ≤ id ∧ id ≤ 0x5FF then id - 0x580 + 1
  else if 0x600 ≤ id ∧ id ≤ 0x67F then id - 0x600 + 1
  else if 0x700 ≤ id ∧ id ≤ 0x77F then id - 0x700 + 1
  else 0

/-- Branch-evaluation helpers for the classifier tables below. -/
theorem evalIteNo {α : Type} {c : Prop} [Decidable c] (t e : α) (hc : ¬ c) :
    (if c then t else e) = e := if_neg hc

theorem evalIteYes {α : Type} {c : Prop} [Decidable c] (t e : α) (hc : c) :
    (if c then t else e) = t := if_pos hc

/-- C1 (counterexample): the claim maps `0x700` to `(HEARTBEAT, 0x700 − 0x700)`,
i.e. node 0, but the code classifies `0x700` as `(HEARTBEAT, 1)`. -/
theorem classifyCANopen_0x700_counterexample :
    classifyCANopen 0x700 ≠ ("HEARTBEAT", 0x700 - 0x700) ∧
    classifyCANopen 0x700 = ("HEARTBEAT", 1) := by
  constructor
  · decide
  · decide

/-- C1 (amended): for every 32-bit CAN identifier, the classifier of
`GetCANopenMessages` returns exactly the category and node id of the fixed
COB-ID table: `0x000 ↦ (NMT,0)`; `0x080 ↦ (SYNC,0)`;
`0x081..0x0FF ↦ (EMCY, id−0x080)`; the eight contiguous 128-ID blocks from
`0x180` alternate TPDO/RPDO 1..4 with node `id − rangeBase + 1` (so every id
in `0x180..0x1FF` is `(TPDO1, id−0x180+1)`, and `0x17F`, `0x200` are not
TPDO1); `0x580..0x5FF`/`0x600..0x67F ↦` SDO response/request with node
`id − rangeBase + 1`; `0x700..0x77F ↦ (HEARTBEAT, id−0x700+1)` (amended:
the code adds 1 here, the claim's `id−0x700` is false); all else
`(UNKNOWN, 0)`. -/
theorem classifyCANopen_eq_claimC1Table (id : Nat) (hid : id < 2 ^ 32) :
    classifyCANopen id = (claimC1Category id, claimC1NodeId id) := by
  have h1 : getCANopenMessagesMessageType id = claimC1Category id := by
    rcases (show id = 0x000 ∨
      id = 0x080 ∨
      (0x081 ≤ id ∧ id ≤ 0x0FF) ∨
      (0x180 ≤ id ∧ id ≤ 0x1FF) ∨
      (0x200 ≤ id ∧ id ≤ 0x27F) ∨
      (0x280 ≤ id ∧ id ≤ 0x2FF) ∨
      (0x300 ≤ id ∧ id ≤ 0x37F) ∨
      (0x380 ≤ id ∧ id ≤ 0x3FF) ∨
      (0x400 ≤ id ∧ id ≤ 0x47F) ∨
      (0x480 ≤ id ∧ id ≤ 0x4FF) ∨
      (0x500 ≤ id ∧ id ≤ 0x57F) ∨
      (0x580 ≤ id ∧ id ≤ 0x5FF) ∨
      (0x600 ≤ id ∧ id ≤ 0x67F) ∨
      (0x700 ≤ id ∧ id ≤ 0x77F) ∨
      ((¬ id = 0x000 ∧ id ≤ 0x07F) ∨ (0x100 ≤ id ∧ id ≤ 0x17F) ∨ (0x680 ≤ id ∧ id ≤ 0x6FF) ∨ 0x780 ≤ id) by omega) with h|h|h|h|h|h|h|h|h|h|h|h|h|h|h
    · unfold getCANopenMessagesMessageType claimC1Category
      conv_lhs => rw [evalIteYes _ _ (by omega)]
      conv_rhs => rw [evalIteYes _ _ (by omega)]
      try rfl
    · unfold getCANopenMessagesMessageType claimC1Category
      conv_lhs => rw [evalIteNo _ _ (by omega), evalIteYes _ _ (by omega)]
      conv_rhs => rw [evalIteNo _ _ (by omega), evalIteYes _ _ (by omega)]
      try rfl
    · unfold getCANopenMessagesMessageType claimC1Category
      conv_lhs => rw [evalIteNo _ _ (by omega), evalIteNo _ _ (by omega), evalIteYes _ _ (by omega)]
      conv_rhs => rw [evalIteNo _ _ (by omega), evalIteNo _ _ (by omega), evalIteYes _ _ (by omega)]
      try rfl
    · unfold getCANopenMessagesMessageType claimC1Category
      conv_lhs => rw [evalIteNo _ _ (by omega), evalIteNo _ _ (by omega), evalIteNo _ _ (by omega), evalIteYes _ _ (by omega)]
      conv_rhs => rw [evalIteNo _ _ (by omega), evalIteNo _ _ (by omega), evalIteNo _ _ (by omega), evalIteYes _ _ (by omega)]
      try rw [show (id - 0x180) / 128 = 0 by omega]
      try decide
    · unfold getCANopenMessagesMessageType claimC1Category
      conv_lhs => rw [evalIteNo _ _ (by omega), evalIteNo _ _ (by omega), evalIteNo _ _ (by omega), evalIteNo _ _ (by omega), evalIteYes _ _ (by omega)]
      conv_rhs => rw [evalIteNo _ _ (by omega), evalIteNo _ _ (by omega), evalIteNo _ _ (by omega), evalIteYes _ _ (by omega)]
      try rw [show (id - 0x180) / 128 = 1 by omega]
      try decide
    · unfold getCANopenMessagesMessageType claimC1Category
      conv_lhs => rw [evalIteNo _ _ (by omega), evalIteNo _ _ (by omega), evalIteNo _ _ (by omega), evalIteNo _ _ (by omega), evalIteNo _ _ (by omega), evalIteYes _ _ (by omega)]
      conv_rhs => rw [evalIteNo _ _ (by omega), evalIteNo _ _ (by omega), evalIteNo _ _ (by omega), evalIteYes _ _ (by omega)]
      try rw [show (id - 0x180) / 128 = 2 by omega]
      try decide
    · unfold getCANopenMessagesMessageType claimC1Category
      conv_lhs => rw [evalIteNo _ _ (by omega), evalIteNo _ _ (by omega), evalIteNo _ _ (by omega), evalIteNo _ _ (by omega), evalIteNo _ _ (by omega), evalIteNo _ _ (by omega), evalIteYes _ _ (by omega)]
      conv_rhs => rw [evalIteNo _ _ (by omega), evalIteNo _ _ (by omega), evalIteNo _ _ (by omega), evalIteYes _ _ (by omega)]
      try rw [show (id - 0x180) / 128 = 3 by omega]
      try decide
    · unfold getCANopenMessagesMessageType claimC1Category
      conv_lhs => rw [evalIteNo _ _ (by omega), evalIteNo _ _ (by omega), evalIteNo _ _ (by omega), evalIteNo _ _ (by omega), evalIteNo _ _ (by omega), evalIteNo _ _ (by omega), evalIteNo _ _ (by omega), evalIteYes _ _ (by omega)]
      conv_rhs => rw [evalIteNo _ _ (by omega), evalIteNo _ _ (by omega), evalIteNo _ _ (by omega), evalIteYes _ _ (by omega)]
      try rw [show (id - 0x180) / 128 = 4 by omega]
      try decide
    · unfold getCANopenMessagesMessageType claimC1Category
      conv_lhs => rw [evalIteNo _ _ (by omega), evalIteNo _ _ (by omega), evalIteNo _ _ (by omega), evalIteNo _ _ (by omega), evalIteNo _ _ (by omega), evalIteNo _ _ (by omega), evalIteNo _ _ (by omega), evalIteNo _ _ (by omega), evalIteYes _ _ (by omega)]
      conv_rhs => rw [evalIteNo _ _ (by omega), evalIteNo _ _ (by omega), evalIteNo _ _ (by omega), evalIteYes _ _ (by omega)]
      try rw [show (id - 0x180) / 128 = 5 by omega]
      try decide
    · unfold getCANopenMessagesMessageType claimC1Category
      conv_lhs => rw [evalIteNo _ _ (by omega), evalIteNo _ _ (by omega), evalIteNo _ _ (by omega), evalIteNo _ _ (by omega), evalIteNo _ _ (by omega), evalIteNo _ _ (by omega), evalIteNo _ _ (by omega), evalIteNo _ _ (by omega), evalIteNo _ _ (by omega), evalIteYes _ _ (by omega)]
      conv_rhs => rw [evalIteNo _ _ (by omega), evalIteNo _ _ (by omega), evalIteNo _ _ (by omega), evalIteYes _ _ (by omega)]
      try rw [show (id - 0x180) / 128 = 6 by omega]
      try decide
    · unfold getCANopenMessagesMessageType claimC1Category
      conv_lhs => rw [evalIteNo _ _ (by omega), evalIteNo _ _ (by omega), evalIteNo _ _ (by omega), evalIteNo _ _ (by omega), evalIteNo _ _ (by omega), evalIteNo _ _ (by omega), evalIteNo _ _ (by omega), evalIteNo _ _ (by omega), evalIteNo _ _ (by omega), evalIteNo _ _ (by omega), evalIteYes _ _ (by omega)]
      conv_rhs => rw [evalIteNo _ _ (by omega), evalIteNo _ _ (by omega), evalIteNo _ _ (by omega), evalIteYes _ _ (by omega)]
      try rw [show (id - 0x180) / 128 = 7 by omega]
      try decide
    · unfold getCANopenMessagesMessageType claimC1Category
      conv_lhs => rw [evalIteNo _ _ (by omega), evalIteNo _ _ (by omega), evalIteNo _ _ (by omega), evalIteNo _ _ (by omega), evalIteNo _ _ (by omega), evalIteNo _ _ (by omega), evalIteNo _ _ (by omega), evalIteNo _ _ (by omega), evalIteNo _ _ (by omega), evalIteNo _ _ (by omega), evalIteNo _ _ (by omega), evalIteYes _ _ (by omega)]
      conv_rhs => rw [evalIteNo _ _ (by omega), evalIteNo _ _ (by omega), evalIteNo _ _ (by omega), evalIteNo _ _ (by omega), evalIteYes _ _ (by omega)]
      try rfl
    · unfold getCANopenMessagesMessageType claimC1Category
      conv_lhs => rw [evalIteNo _ _ (by omega), evalIteNo _ _ (by omega), evalIteNo _ _ (by omega), evalIteNo _ _ (by omega), evalIteNo _ _ (by omega), evalIteNo _ _ (by omega), evalIteNo _ _ (by omega), evalIteNo _ _ (by omega), evalIteNo _ _ (by omega), evalIteNo _ _ (by omega), evalIteNo _ _ (by omega), evalIteNo _ _ (by omega), evalIteYes _ _ (by omega)]
      conv_rhs => rw [evalIteNo _ _ (by omega), evalIteNo _ _ (by omega), evalIteNo _ _ (by omega), evalIteNo _ _ (by omega), evalIteNo _ _ (by omega), evalIteYes _ _ (by omega)]
      try rfl
    · unfold getCANopenMessagesMessageType claimC1Category
      conv_lhs => rw [evalIteNo _ _ (by omega), evalIteNo _ _ (by omega), evalIteNo _ _ (by omega), evalIteNo _ _ (by omega), evalIteNo _ _ (by omega), evalIteNo _ _ (by omega), evalIteNo _ _ (by omega), evalIteNo _ _ (by omega), evalIteNo _ _ (by omega), evalIteNo _ _ (by omega), evalIteNo _ _ (by omega), evalIteNo _ _ (by omega), evalIteNo _ _ (by omega), evalIteYes _ _ (by omega)]
      conv_rhs => rw [evalIteNo _ _ (by omega), evalIteNo _ _ (by omega), evalIteNo _ _ (by omega), evalIteNo _ _ (by omega), evalIteNo _ _ (by omega), evalIteNo _ _ (by omega), evalIteYes _ _ (by omega)]
      try rfl
    · unfold getCANopenMessagesMessageType claimC1Category
      conv_lhs => rw [evalIteNo _ _ (by omega), evalIteNo _ _ (by omega), evalIteNo _ _ (by omega), evalIteNo _ _ (by omega), evalIteNo _ _ (by omega), evalIteNo _ _ (by omega), evalIteNo _ _ (by omega), evalIteNo _ _ (by omega), evalIteNo _ _ (by omega), evalIteNo _ _ (by omega), evalIteNo _ _ (by omega), evalIteNo _ _ (by omega), evalIteNo _ _ (by omega), evalIteNo _ _ (by omega)]
      conv_rhs => rw [evalIteNo _ _ (by omega), evalIteNo _ _ (by omega), evalIteNo _ _ (by omega), evalIteNo _ _ (by omega), evalIteNo _ _ (by omega), evalIteNo _ _ (by omega), evalIteNo _ _ (by omega)]
      try rfl
  have h2 : getCANopenMessagesNodeId id = claimC1NodeId id := by
    rcases (show id = 0x000 ∨
      id = 0x080 ∨
      (0x081 ≤ id ∧ id ≤ 0x0FF) ∨
      (0x180 ≤ id ∧ id ≤ 0x1FF) ∨
      (0x200 ≤ id ∧ id ≤ 0x27F) ∨
      (0x280 ≤ id ∧ id ≤ 0x2FF) ∨
      (0x300 ≤ id ∧ id ≤ 0x37F) ∨
      (0x380 ≤ id ∧ id ≤ 0x3FF) ∨
      (0x400 ≤ id ∧ id ≤ 0x47F) ∨
      (0x480 ≤ id ∧ id ≤ 0x4FF) ∨
      (0x500 ≤ id ∧ id ≤ 0x57F) ∨
      (0x580 ≤ id ∧ id ≤ 0x5FF) ∨
      (0x600 ≤ id ∧ id ≤ 0x67F) ∨
      (0x700 ≤ id ∧ id ≤ 0x77F) ∨
      ((¬ id = 0x000 ∧ id ≤ 0x07F) ∨ (0x100 ≤ id ∧ id ≤ 0x17F) ∨ (0x680 ≤ id ∧ id ≤ 0x6FF) ∨ 0x780 ≤ id) by omega) with h|h|h|h|h|h|h|h|h|h|h|h|h|h|h
    · unfold getCANopenMessagesNodeId claimC1NodeId
      conv_lhs => rw [evalIteYes _ _ (by omega)]
      conv_rhs => rw [evalIteYes _ _ (by omega)]
      try omega
    · unfold getCANopenMessagesNodeId claimC1NodeId
      conv_lhs => rw [evalIteYes _ _ (by omega)]
      conv_rhs => rw [evalIteNo _ _ (by omega), evalIteYes _ _ (by omega)]
      try omega
    · unfold getCANopenMessagesNodeId claimC1NodeId
      conv_lhs => rw [evalIteNo _ _ (by omega), evalIteYes _ _ (by omega)]
      conv_rhs => rw [evalIteNo _ _ (by omega), evalIteNo _ _ (by omega), evalIteYes _ _ (by omega)]
      try omega
    · unfold getCANopenMessagesNodeId claimC1NodeId
      conv_lhs => rw [evalIteNo _ _ (by omega), evalIteNo _ _ (by omega), evalIteYes _ _ (by omega)]
      conv_rhs => rw [evalIteNo _ _ (by omega), evalIteNo _ _ (by omega), evalIteNo _ _ (by omega), evalIteYes _ _ (by omega)]
      try omega
    · unfold getCANopenMessagesNodeId claimC1NodeId
      conv_lhs => rw [evalIteNo _ _ (by omega), evalIteNo _ _ (by omega), evalIteNo _ _ (by omega), evalIteYes _ _ (by omega)]
      conv_rhs => rw [evalIteNo _ _ (by omega), evalIteNo _ _ (by omega), evalIteNo _ _ (by omega), evalIteYes _ _ (by omega)]
      try omega
    · unfold getCANopenMessagesNodeId claimC1NodeId
      conv_lhs => rw [evalIteNo _ _ (by omega), evalIteNo _ _ (by omega), evalIteNo _ _ (by omega), evalIteNo _ _ (by omega), evalIteYes _ _ (by omega)]
      conv_rhs => rw [evalIteNo _ _ (by omega), evalIteNo _ _ (by omega), evalIteNo _ _ (by omega), evalIteYes _ _ (by omega)]
      try omega
    · unfold getCANopenMessagesNodeId claimC1NodeId
      conv_lhs => rw [evalIteNo _ _ (by omega), evalIteNo _ _ (by omega), evalIteNo _ _ (by omega), evalIteNo _ _ (by omega), evalIteNo _ _ (by omega), evalIteYes _ _ (by omega)]
      conv_rhs => rw [evalIteNo _ _ (by omega), evalIteNo _ _ (by omega), evalIteNo _ _ (by omega), evalIteYes _ _ (by omega)]
      try omega
    · unfold getCANopenMessagesNodeId claimC1NodeId
      conv_lhs => rw [evalIteNo _ _ (by omega), evalIteNo _ _ (by omega), evalIteNo _ _ (by omega), evalIteNo _ _ (by omega), evalIteNo _ _ (by omega), evalIteNo _ _ (by omega), evalIteYes _ _ (by omega)]
      conv_rhs => rw [evalIteNo _ _ (by omega), evalIteNo _ _ (by omega), evalIteNo _ _ (by omega), evalIteYes _ _ (by omega)]
      try omega
    · unfold getCANopenMessagesNodeId claimC1NodeId
      conv_lhs => rw [evalIteNo _ _ (by omega), evalIteNo _ _ (by omega), evalIteNo _ _ (by omega), evalIteNo _ _ (by omega), evalIteNo _ _ (by omega), evalIteNo _ _ (by omega), evalIteNo _ _ (by omega), evalIteYes _ _ (by omega)]
      conv_rhs => rw [evalIteNo _ _ (by omega), evalIteNo _ _ (by omega), evalIteNo _ _ (by omega), evalIteYes _ _ (by omega)]
      try omega
    · unfold getCANopenMessagesNodeId claimC1NodeId
      conv_lhs => rw [evalIteNo _ _ (by omega), evalIteNo _ _ (by omega), evalIteNo _ _ (by omega), evalIteNo _ _ (by omega), evalIteNo _ _ (by omega), evalIteNo _ _ (by omega), evalIteNo _ _ (by omega), evalIteNo _ _ (by omega), evalIteYes _ _ (by omega)]
      conv_rhs => rw [evalIteNo _ _ (by omega), evalIteNo _ _ (by omega), evalIteNo _ _ (by omega), evalIteYes _ _ (by omega)]
      try omega
    · unfold getCANopenMessagesNodeId claimC1NodeId
      conv_lhs => rw [evalIteNo _ _ (by omega), evalIteNo _ _ (by omega), evalIteNo _ _ (by omega), evalIteNo _ _ (by omega), evalIteNo _ _ (by omega), evalIteNo _ _ (by omega), evalIteNo _ _ (by omega), evalIteNo _ _ (by omega), evalIteNo _ _ (by omega), evalIteYes _ _ (by omega)]
      conv_rhs => rw [evalIteNo _ _ (by omega), evalIteNo _ _ (by omega), evalIteNo _ _ (by omega), evalIteYes _ _ (by omega)]
      try omega
    · unfold getCANopenMessagesNodeId claimC1NodeId
      conv_lhs => rw [evalIteNo _ _ (by omega), evalIteNo _ _ (by omega), evalIteNo _ _ (by omega), evalIteNo _ _ (by omega), evalIteNo _ _ (by omega), evalIteNo _ _ (by omega), evalIteNo _ _ (by omega), evalIteNo _ _ (by omega), evalIteNo _ _ (by omega), evalIteNo _ _ (by omega), evalIteYes _ _ (by omega)]
      conv_rhs => rw [evalIteNo _ _ (by omega), evalIteNo _ _ (by omega), evalIteNo _ _ (by omega), evalIteNo _ _ (by omega), evalIteYes _ _ (by omega)]
      try omega
    · unfold getCANopenMessagesNodeId claimC1NodeId
      conv_lhs => rw [evalIteNo _ _ (by omega), evalIteNo _ _ (by omega), evalIteNo _ _ (by omega), evalIteNo _ _ (by omega), evalIteNo _ _ (by omega), evalIteNo _ _ (by omega), evalIteNo _ _ (by omega), evalIteNo _ _ (by omega), evalIteNo _ _ (by omega), evalIteNo _ _ (by omega), evalIteNo _ _ (by omega), evalIteYes _ _ (by omega)]
      conv_rhs => rw [evalIteNo _ _ (by omega), evalIteNo _ _ (by omega), evalIteNo _ _ (by omega), evalIteNo _ _ (by omega), evalIteNo _ _ (by omega), evalIteYes _ _ (by omega)]
      try omega
    · unfold getCANopenMessagesNodeId claimC1NodeId
      conv_lhs => rw [evalIteNo _ _ (by omega), evalIteNo _ _ (by omega), evalIteNo _ _ (by omega), evalIteNo _ _ (by omega), evalIteNo _ _ (by omega), evalIteNo _ _ (by omega), evalIteNo _ _ (by omega), evalIteNo _ _ (by omega), evalIteNo _ _ (by omega), evalIteNo _ _ (by omega), evalIteNo _ _ (by omega), evalIteNo _ _ (by omega), evalIteYes _ _ (by omega)]
      conv_rhs => rw [evalIteNo _ _ (by omega), evalIteNo _ _ (by omega), evalIteNo _ _ (by omega), evalIteNo _ _ (by omega), evalIteNo _ _ (by omega), evalIteNo _ _ (by omega), evalIteYes _ _ (by omega)]
      try omega
    · unfold getCANopenMessagesNodeId claimC1NodeId
      conv_lhs => rw [evalIteNo _ _ (by omega), evalIteNo _ _ (by omega), evalIteNo _ _ (by omega), evalIteNo _ _ (by omega), evalIteNo _ _ (by omega), evalIteNo _ _ (by omega), evalIteNo _ _ (by omega), evalIteNo _ _ (by omega), evalIteNo _ _ (by omega), evalIteNo _ _ (by omega), evalIteNo _ _ (by omega), evalIteNo _ _ (by omega), evalIteNo _ _ (by omega)]
      conv_rhs => rw [evalIteNo _ _ (by omega), evalIteNo _ _ (by omega), evalIteNo _ _ (by omega), evalIteNo _ _ (by omega), evalIteNo _ _ (by omega), evalIteNo _ _ (by omega), evalIteNo _ _ (by omega)]
      try omega
  unfold classifyCANopen
  rw [h1, h2]

/-- Witness for `classifyCANopen_eq_claimC1Table` at the concrete
identifier `0x181`. -/
theorem classifyCANopen_eq_claimC1Table_witness :
    classifyCANopen 0x181 = (claimC1Category 0x181, claimC1NodeId 0x181) :=
  classifyCANopen_eq_claimC1Table 0x181 (by norm_num)

/-! ## Frame Reader

Embedding of `Reader.readLoop` and `Reader.Close`
(package `can`, part of the `can-db-writer` backend).  A kernel read is a
`ReadResult`: either an I/O failure or `n` bytes delivered into the fixed
16-byte buffer.  The message channel (capacity 1000) and the error channel
are modelled as queues; the blocking send on the error channel is modelled
as always delivered (its consumer is external).  The wall-clock timestamp
taken at decode time is outside the embedding.
-/

/-- `models.CANFrame`: identifier, data length code, 8 data bytes. -/
structure CANFrame where
  ID : Nat
  DLC : Nat
  Data : List Nat
deriving DecidableEq

/-- `models.CANMessage` (timestamp omitted: wall-clock time). -/
structure CANMessage where
  Frame : CANFrame
  Interface : String
deriving DecidableEq

/-- One `unix.Read` outcome: `failure` is a read error, `success n buf` a
read of `n` bytes with the 16-byte buffer contents `buf`. -/
inductive ReadResult where
  | failure (msg : String)
  | success (n : Nat) (buf : List Nat)

/-- Errors pushed to `errorChan` by `readLoop`. -/
inductive ReadErr where
  | readError (msg : String)
  | incompleteFrame (n : Nat)
  | channelFull
deriving DecidableEq

/-- `msgChan` buffer capacity (`make(chan models.CANMessage, 1000)`). -/
def msgChanCapacity : Nat := 1000

/-- Frame decoding inside `readLoop`:
`ID = binary.LittleEndian.Uint32(buf[0:4])`, `DLC = buf[4]`,
`copy(frame.Data[:], buf[8:16])`. -/
def decodeCANFrame (buf : List Nat) : CANFrame :=
  { ID := buf.getD 0 0 + 256 * buf.getD 1 0 + 65536 * buf.getD 2 0 +
      16777216 * buf.getD 3 0
    DLC := buf.getD 4 0
    Data := (buf.drop 8).take 8 }

/-- Queues owned by the reader loop. -/
structure ReaderLoopState where
  msgQ : List CANMessage
  errQ : List ReadErr
deriving DecidableEq

/-- One iteration of `Reader.readLoop`: a read error or a short read (fewer
than 16 bytes) is reported on the error channel and the loop continues; a
full 16-byte read is decoded and pushed non-blocking (drop-if-full) to the
message channel. -/
def readLoopStep (ifname : String) (st : ReaderLoopState) (r : ReadResult) :
    ReaderLoopState :=
  match r with
  | .failure m => { st with errQ := st.errQ ++ [.readError m] }
  | .success n buf =>
      if n < 16 then { st with errQ := st.errQ ++ [.incompleteFrame n] }
      else
        let msg : CANMessage := { Frame := decodeCANFrame buf, Interface := ifname }
        if st.msgQ.length < msgChanCapacity then { st with msgQ := st.msgQ ++ [msg] }
        else { st with errQ := st.errQ ++ [.channelFull] }

/-- The reader loop over a sequence of kernel reads. -/
def readLoopRun (ifname : String) (st : ReaderLoopState) (rs : List ReadResult) :
    ReaderLoopState :=
  rs.foldl (readLoopStep ifname) st

/-- C2: a read returning the full 16-byte buffer decodes to a frame whose
identifier is the little-endian 32-bit value of bytes 0–3, whose length is
byte 4, and whose payload is bytes 8–15, pushed to the message queue; a
read of fewer than 16 bytes produces a `MalformedFrame`-style error on the
error queue, leaves the message queue untouched (no partial frame), and the
loop goes on to process the remaining reads. -/
theorem readLoop_decodes_c2 (ifname : String) (st : ReaderLoopState)
    (buf : List Nat) (h16 : buf.length = 16) (n : Nat) (hn : n < 16)
    (hq : st.msgQ.length < msgChanCapacity) (r : ReadResult) (rs : List ReadResult) :
    readLoopStep ifname st (.success 16 buf) =
      { st with msgQ := st.msgQ ++
          [{ Frame := { ID := (∑ i ∈ Finset.range 4, buf.getD i 0 * 256 ^ i),
                        DLC := buf.getD 4 0,
                        Data := buf.drop 8 },
             Interface := ifname }] } ∧
    readLoopStep ifname st (.success n buf) =
      { st with errQ := st.errQ ++ [.incompleteFrame n] } ∧
    readLoopRun ifname st (r :: rs) = readLoopRun ifname (readLoopStep ifname st r) rs := by
  refine ⟨?_, ?_, rfl⟩
  · have hd : (buf.drop 8).take 8 = buf.drop 8 := by
      apply List.take_of_length_le
      simp [h16]
    simp only [readLoopStep]
    rw [if_neg (by omega), if_pos hq]
    simp only [decodeCANFrame, hd, Finset.sum_range_succ, Finset.sum_range_zero]
    norm_num
    ring_nf
  · simp only [readLoopStep]
    rw [if_pos hn]

/-- Concrete 16-byte kernel buffer used by the C2 witness. -/
def c2WitnessBuf : List Nat :=
  [0x12, 0x34, 0x56, 0x78, 5, 0, 0, 0, 1, 2, 3, 4, 5, 6, 7, 8]

/-- Witness for `readLoop_decodes_c2` on a concrete buffer and a short read
of 3 bytes. -/
theorem readLoop_decodes_c2_witness :
    readLoopStep "can0" ⟨[], []⟩ (.success 16 c2WitnessBuf) =
      { msgQ := [{ Frame := { ID := (∑ i ∈ Finset.range 4, c2WitnessBuf.getD i 0 * 256 ^ i),
                              DLC := c2WitnessBuf.getD 4 0,
                              Data := c2WitnessBuf.drop 8 },
                   Interface := "can0" }],
        errQ := [] } ∧
    readLoopStep "can0" ⟨[], []⟩ (.success 3 c2WitnessBuf) =
      { msgQ := [], errQ := [.incompleteFrame 3] } ∧
    readLoopRun "can0" ⟨[], []⟩ [.failure "io"] =
      readLoopRun "can0" (readLoopStep "can0" ⟨[], []⟩ (.failure "io")) [] := by
  have h := readLoop_decodes_c2 "can0" ⟨[], []⟩ c2WitnessBuf (by decide)
    3 (by decide) (by decide) (.failure "io") []
  exact ⟨h.1, h.2.1, h.2.2⟩

/-! ## Frame Reader shutdown (`Reader.Close`)

`Reader.Close` runs `close(r.msgChan); close(r.errorChan); unix.Close(r.socket)`.
Closing an already-closed Go channel panics (modelled as `none`); closing an
already-closed file descriptor merely returns `EBADF`.  The returned `Bool`
is whether `unix.Close` returned without error. -/

/-- Resources owned by a `Reader` that `Close` releases. -/
structure ReaderChans where
  msgChanClosed : Bool
  errChanClosed : Bool
  socketClosed : Bool
deriving DecidableEq

/-- A fresh reader as built by `NewReader`: nothing closed yet. -/
def initialReaderChans : ReaderChans :=
  { msgChanClosed := false, errChanClosed := false, socketClosed := false }

/-- `Reader.Close`: panics (`none`) when either channel is already closed,
otherwise closes both channels and the socket. -/
def readerClose (s : ReaderChans) : Option (ReaderChans × Bool) :=
  if s.msgChanClosed then none
  else if s.errChanClosed then none
  else some ({ msgChanClosed := true, errChanClosed := true, socketClosed := true },
    !s.socketClosed)

/-- C10 (counterexample): the first `Close` on a fresh reader succeeds, but
a second `Close` panics when it re-closes `msgChan` — `Close` is not
idempotent as claimed. -/
theorem readerClose_second_close_panics :
    (readerClose initialReaderChans).isSome = true ∧
    (readerClose initialReaderChans).bind (fun p => readerClose p.1) = none := by
  decide

/-- C10 (amended): `Close` is not idempotent.  The first `Close` on a fresh
reader succeeds, closing both channels and the socket (so no further reads
can be delivered); any later `Close` — in any state whose message channel is
already closed — panics on `close(msgChan)` instead of succeeding. -/
theorem readerClose_not_idempotent (s : ReaderChans) (h : s.msgChanClosed = true) :
    readerClose s = none ∧
    readerClose initialReaderChans =
      some ({ msgChanClosed := true, errChanClosed := true, socketClosed := true }, true) := by
  constructor
  · simp [readerClose, h]
  · decide

/-- Witness for `readerClose_not_idempotent` at the state left by a first
successful `Close`. -/
theorem readerClose_not_idempotent_witness :
    readerClose ⟨true, true, true⟩ = none ∧
    readerClose initialReaderChans =
      some ({ msgChanClosed := true, errChanClosed := true, socketClosed := true }, true) :=
  readerClose_not_idempotent ⟨true, true, true⟩ rfl

/-! ## Batching Sink (`clickhouse.Writer`)

Embedding of `Writer.writeLoop`, `Writer.flush`, `Writer.Write` and
`Writer.Close` (package `clickhouse` of `can-db-writer`; `StatsWriter` is
line-for-line the same loop).  The record type is a parameter: the batching
logic never inspects a record.  The downstream store is the list of batches
sent so far; one flush attempt either sends the whole batch (`sendOk =
true`, batch cleared) or fails at prepare/append/send (`sendOk = false`,
batch kept, error ignored by the loop).  The events a loop iteration can
select are a received record, a flush-timer tick, or context cancellation
(`Close`). -/

/-- State of one `Writer`: the accumulated batch, the batches already sent
downstream, and whether the processing loop has returned. -/
structure WriterState (R : Type) where
  batch : List R
  downstream : List (List R)
  stopped : Bool
deriving DecidableEq

/-- A fresh writer: empty batch, nothing sent, loop running. -/
def initialWriterState {R : Type} : WriterState R :=
  { batch := [], downstream := [], stopped := false }

/-- One event the `select` of `writeLoop` can wake on, tagged with whether
the flush it may trigger would succeed downstream. -/
inductive WriterEvent (R : Type) where
  | msg (r : R) (sendOk : Bool)
  | tick (sendOk : Bool)
  | ctxDone (sendOk : Bool)

/-- `Writer.flush`: an empty batch is a no-op; otherwise on success the
whole batch is appended downstream and cleared (`w.batch = w.batch[:0]`),
on failure the batch is left in place. -/
def writerFlush {R : Type} (batch : List R) (downstream : List (List R))
    (sendOk : Bool) : List R × List (List R) :=
  if batch.isEmpty then (batch, downstream)
  else if sendOk then ([], downstream ++ [batch])
  else (batch, downstream)

/-- One iteration of `Writer.writeLoop`: on `ctx.Done` flush any remaining
batch and return; on a received record append it and flush when the batch
has reached `batchSize`; on a timer tick flush a non-empty batch. -/
def writerStep {R : Type} (batchSize : Nat) (st : WriterState R)
    (ev : WriterEvent R) : WriterState R :=
  if st.stopped then st
  else
    match ev with
    | .ctxDone ok =>
        if st.batch.isEmpty then { st with stopped := true }
        else
          let p := writerFlush st.batch st.downstream ok
          { batch := p.1, downstream := p.2, stopped := true }
    | .msg r ok =>
        let b := st.batch ++ [r]
        if batchSize ≤ b.length then
          let p := writerFlush b st.downstream ok
          { st with batch := p.1, downstream := p.2 }
        else { st with batch := b }
    | .tick ok =>
        if st.batch.isEmpty then st
        else
          let p := writerFlush st.batch st.downstream ok
          { st with batch := p.1, downstream := p.2 }

/-- The processing loop over a sequence of events. -/
def writerRun {R : Type} (batchSize : Nat) (st : WriterState R)
    (evs : List (WriterEvent R)) : WriterState R :=
  evs.foldl (writerStep batchSize) st

/-- The events delivered by pushing records `rs` with a healthy downstream. -/
def msgEvents {R : Type} (rs : List R) : List (WriterEvent R) :=
  rs.map (fun r => .msg r true)

/-- Accumulation without reaching the size trigger never flushes. -/
theorem writerRun_msgs_no_flush {R : Type} (batchSize : Nat) (rs : List R) :
    ∀ (acc : List R) (ds : List (List R)),
      acc.length + rs.length < batchSize →
      writerRun batchSize ⟨acc, ds, false⟩ (msgEvents rs) =
        ⟨acc ++ rs, ds, false⟩ := by
  induction rs with
  | nil => intro acc ds _; simp [writerRun, msgEvents]
  | cons r rs ih =>
      intro acc ds h
      simp only [List.length_cons] at h
      have hstep : writerStep batchSize ⟨acc, ds, false⟩ (.msg r true) =
          ⟨acc ++ [r], ds, false⟩ := by
        simp only [writerStep]
        rw [if_neg (by simp)]
        rw [if_neg (by simp; omega)]
      have hrec := ih (acc ++ [r]) ds (by simp; omega)
      simp only [writerRun, msgEvents, List.map_cons, List.foldl_cons] at hrec ⊢
      rw [hstep, hrec, List.append_assoc]
      simp

/-- Filling the batch up to exactly `batchSize` flushes once, immediately on
the last record. -/
theorem writerRun_msgs_fill {R : Type} (batchSize : Nat) (rs : List R) :
    ∀ (acc : List R) (ds : List (List R)),
      rs ≠ [] →
      acc.length + rs.length = batchSize →
      writerRun batchSize ⟨acc, ds, false⟩ (msgEvents rs) =
        ⟨[], ds ++ [acc ++ rs], false⟩ := by
  induction rs with
  | nil => intro acc ds hne _; exact absurd rfl hne
  | cons r rs ih =>
      intro acc ds _ h
      simp only [List.length_cons] at h
      by_cases hrs : rs = []
      · subst hrs
        simp only [List.length_nil] at h
        simp only [writerRun, msgEvents, List.map_cons, List.map_nil,
          List.foldl_cons, List.foldl_nil]
        simp only [writerStep]
        rw [if_neg (by simp)]
        rw [if_pos (by simp; omega)]
        simp [writerFlush]
      · have hlen : 1 ≤ rs.length := by
          cases rs with
          | nil => exact absurd rfl hrs
          | cons a l => simp
        have hstep : writerStep batchSize ⟨acc, ds, false⟩ (.msg r true) =
            ⟨acc ++ [r], ds, false⟩ := by
          simp only [writerStep]
          rw [if_neg (by simp)]
          rw [if_neg (by simp; omega)]
        have hrec := ih (acc ++ [r]) ds hrs (by simp; omega)
        simp only [writerRun, msgEvents, List.map_cons, List.foldl_cons] at hrec ⊢
        rw [hstep, hrec, List.append_assoc]
        simp

/-- Once the loop has returned (`stopped`), no event changes the state: in
particular nothing further is written downstream. -/
theorem writerRun_stopped {R : Type} (batchSize : Nat) (evs : List (WriterEvent R)) :
    ∀ st : WriterState R, st.stopped = true → writerRun batchSize st evs = st := by
  induction evs with
  | nil => intro st _; rfl
  | cons e evs ih =>
      intro st h
      have hstep : writerStep batchSize st e = st := by
        simp only [writerStep, h]
        rfl
      simp only [writerRun, List.foldl_cons, hstep]
      exact ih st h

/-- C3: pushing `r1..rN` with `N < batchSize` into an idle sink accumulates
them in order without flushing, and the next timer tick flushes exactly one
batch `[r1..rN]`; pushing exactly `batchSize` records flushes exactly once,
immediately on receipt of the last record, with the batch cleared after the
successful flush in both scenarios. -/
theorem writer_batch_triggers_c3 {R : Type} (batchSize : Nat) (rs : List R)
    (h0 : 0 < rs.length) :
    (rs.length < batchSize →
      writerRun batchSize initialWriterState (msgEvents rs) =
        ⟨rs, [], false⟩ ∧
      writerRun batchSize initialWriterState (msgEvents rs ++ [.tick true]) =
        ⟨[], [rs], false⟩) ∧
    (rs.length = batchSize →
      writerRun batchSize initialWriterState (msgEvents rs) =
        ⟨[], [rs], false⟩) := by
  have hne : rs ≠ [] := by
    intro hnil; subst hnil; simp at h0
  have hempty : rs.isEmpty = false := by
    cases rs with
    | nil => exact absurd rfl hne
    | cons a l => rfl
  constructor
  · intro hlt
    have hacc : writerRun batchSize initialWriterState (msgEvents rs) =
        ⟨rs, [], false⟩ := by
      have := writerRun_msgs_no_flush batchSize rs [] [] (by simpa)
      simpa using this
    refine ⟨hacc, ?_⟩
    have hsplit : writerRun batchSize initialWriterState (msgEvents rs ++ [.tick true]) =
        writerRun batchSize ⟨rs, [], false⟩ [.tick true] := by
      simp only [writerRun, List.foldl_append]
      rw [show List.foldl (writerStep batchSize) initialWriterState (msgEvents rs) =
        (⟨rs, [], false⟩ : WriterState R) from hacc]
    rw [hsplit]
    simp only [writerRun, List.foldl_cons, List.foldl_nil]
    simp only [writerStep, writerFlush, hempty]
    rfl
  · intro heq
    have := writerRun_msgs_fill batchSize rs [] [] hne (by simpa)
    simpa using this

/-- Witness for `writer_batch_triggers_c3`: batch size 3, two records plus a
tick, and three records filling the batch. -/
theorem writer_batch_triggers_c3_witness :
    writerRun 3 initialWriterState (msgEvents [1, 2] ++ [.tick true]) =
      ⟨[], [[1, 2]], false⟩ ∧
    writerRun 3 initialWriterState (msgEvents [4, 5, 6]) =
      ⟨[], [[4, 5, 6]], false⟩ :=
  ⟨((writer_batch_triggers_c3 3 [1, 2] (by decide)).1 (by decide)).2,
   (writer_batch_triggers_c3 3 [4, 5, 6] (by decide)).2 (by decide)⟩

/-- C5: `Close` cancels the context; the loop's `ctx.Done` branch flushes
the accumulated partial batch downstream exactly once and stops, and from
the stopped state no sequence of further events ever writes downstream
again. -/
theorem writer_close_flushes_once_c5 {R : Type} (batchSize : Nat)
    (b : List R) (ds : List (List R)) (hb : b ≠ []) :
    writerStep batchSize ⟨b, ds, false⟩ (.ctxDone true) = ⟨[], ds ++ [b], true⟩ ∧
    ∀ evs : List (WriterEvent R),
      writerRun batchSize ⟨[], ds ++ [b], true⟩ evs = ⟨[], ds ++ [b], true⟩ := by
  have hempty : b.isEmpty = false := by
    cases b with
    | nil => exact absurd rfl hb
    | cons a l => rfl
  constructor
  · simp only [writerStep, writerFlush, hempty]
    rfl
  · intro evs
    exact writerRun_stopped batchSize evs _ rfl

/-- Witness for `writer_close_flushes_once_c5`: a partial batch `[1]` is
flushed by `Close`, and later events leave the stopped writer unchanged. -/
theorem writer_close_flushes_once_c5_witness :
    writerStep 10 ⟨[1], [], false⟩ (.ctxDone true) = ⟨[], [[1]], true⟩ ∧
    writerRun 10 ⟨[], [[1]], true⟩ [.msg 2 true, .tick true, .ctxDone true] =
      ⟨[], [[1]], true⟩ :=
  ⟨(writer_close_flushes_once_c5 10 [1] [] (by decide)).1,
   (writer_close_flushes_once_c5 10 [1] [] (by decide)).2
     [.msg 2 true, .tick true, .ctxDone true]⟩

/-! ### Input boundary (`Writer.Write`) -/

/-- Capacity of the input channel: `make(chan models.CANMessage, batchSize*2)`. -/
def batchChanCapacity (batchSize : Nat) : Nat := batchSize * 2

/-- `Writer.Write`: non-blocking `select` send; when the channel buffer is
full the record is dropped and a warning is printed (`true` in the result). -/
def writerWrite {R : Type} (cap : Nat) (q : List R) (r : R) : List R × Bool :=
  if q.length < cap then (q ++ [r], false) else (q, true)

/-- Pushing a list of records through `Writer.Write`; returns the final
channel contents and the number of dropped records (warnings printed). -/
def writerWriteAll {R : Type} (cap : Nat) (q : List R) (rs : List R) :
    List R × Nat :=
  rs.foldl (fun p r =>
    ((writerWrite cap p.1 r).1, p.2 + if (writerWrite cap p.1 r).2 then 1 else 0))
    (q, 0)

/-- The channel contents never exceed the capacity. -/
theorem writerWriteAll_length_le {R : Type} (cap : Nat) (rs : List R) :
    ∀ (q : List R) (c : Nat), q.length ≤ cap →
      (rs.foldl (fun p r =>
        ((writerWrite cap p.1 r).1, p.2 + if (writerWrite cap p.1 r).2 then 1 else 0))
        (q, c)).1.length ≤ cap := by
  induction rs with
  | nil => intro q c h; simpa using h
  | cons r rs ih =>
      intro q c h
      simp only [List.foldl_cons]
      by_cases hql : q.length < cap
      · have h1 : writerWrite cap q r = (q ++ [r], false) := by
          simp [writerWrite, hql]
        rw [h1]
        exact ih (q ++ [r]) _ (by simp; omega)
      · have h1 : writerWrite cap q r = (q, true) := by
          simp [writerWrite, hql]
        rw [h1]
        exact ih q _ h

/-- Pushing into a full channel drops everything and warns once per record. -/
theorem writerWriteAll_full {R : Type} (cap : Nat) (rs : List R) :
    ∀ (q : List R) (c : Nat), q.length = cap →
      rs.foldl (fun p r =>
        ((writerWrite cap p.1 r).1, p.2 + if (writerWrite cap p.1 r).2 then 1 else 0))
        (q, c) = (q, c + rs.length) := by
  induction rs with
  | nil => intro q c _; simp
  | cons r rs ih =>
      intro q c h
      have h1 : writerWrite cap q r = (q, true) := by
        simp [writerWrite, h]
      simp only [List.foldl_cons, h1, if_true]
      rw [ih q (c + 1) h]
      simp only [List.length_cons]
      congr 1
      omega

/-- C4: `Write` is total and non-blocking; a write against a full channel
leaves the channel unchanged and emits a warning (the record is dropped);
however many records are pushed, at most `cap` are ever buffered for the
loop to observe downstream; pushing any records into a full channel drops
them all, one warning each (so `cap+1` pushes against capacity `cap` hand at
most `cap` records to the sink). -/
theorem writer_write_drop_c4 {R : Type} (cap : Nat) (q : List R) (r : R)
    (rs : List R) (hq : q.length ≤ cap) :
    (q.length = cap → writerWrite cap q r = (q, true)) ∧
    (writerWriteAll cap q rs).1.length ≤ cap ∧
    (q.length = cap → writerWriteAll cap q rs = (q, rs.length)) := by
  refine ⟨?_, ?_, ?_⟩
  · intro hfull
    simp [writerWrite, hfull]
  · exact writerWriteAll_length_le cap rs q 0 hq
  · intro hfull
    have := writerWriteAll_full cap rs q 0 hfull
    simpa [writerWriteAll] using this

/-- Witness for `writer_write_drop_c4`: capacity 2, a full channel `[5, 6]`,
and three more pushed records, all dropped. -/
theorem writer_write_drop_c4_witness :
    writerWrite 2 [5, 6] 7 = ([5, 6], true) ∧
    (writerWriteAll 2 [5, 6] [7, 8, 9]).1.length ≤ 2 ∧
    writerWriteAll 2 [5, 6] [7, 8, 9] = ([5, 6], 3) :=
  ⟨(writer_write_drop_c4 2 [5, 6] 7 [7, 8, 9] (by decide)).1 (by decide),
   (writer_write_drop_c4 2 [5, 6] 7 [7, 8, 9] (by decide)).2.1,
   (writer_write_drop_c4 2 [5, 6] 7 [7, 8, 9] (by decide)).2.2 (by decide)⟩

/-! ## CANopen PDO field decoder (`models.PDOMapping.ParsePDOData`)

Embedding of `backend/internal/models/canopen_pdo.go`.  A `PDOField`'s type
is a string, as in Go (`PDOFieldType string`); offsets and lengths are `int`.
Decoded values are Go's typed `any` values.  A slice expression or a
`binary.LittleEndian.UintN` call on a too-short slice panics in Go; a panic
is modelled as `none`. -/

/-- `PDOFieldType` constants. -/
def FieldTypeInt8 : String := "int8"

def FieldTypeUint8 : String := "uint8"

def FieldTypeInt16 : String := "int16"

def FieldTypeUint16 : String := "uint16"

def FieldTypeInt32 : String := "int32"

def FieldTypeUint32 : String := "uint32"

/-- `models.PDOField` (the Go field `Type` is `FieldType` here: `Type` is a
Lean keyword). -/
structure PDOField where
  Name : String
  FieldType : String
  ByteOffset : Int
  ByteLength : Int
deriving DecidableEq

/-- `models.PDOMapping`. -/
structure PDOMapping where
  PDONumber : Int
  Direction : String
  Description : String
  Fields : List PDOField
deriving DecidableEq

/-- The typed `any` value stored for one decoded field (`nil` when the
switch matches no case). -/
inductive PDOValue where
  | i8 (v : Int)
  | u8 (v : Nat)
  | i16 (v : Int)
  | u16 (v : Nat)
  | i32 (v : Int)
  | u32 (v : Nat)
  | nil
deriving DecidableEq

/-- Go slice expression `data[a:b]`: panics (`none`) unless
`0 ≤ a ≤ b ≤ len(data)`. -/
def goSlice (data : List Nat) (a b : Int) : Option (List Nat) :=
  if 0 ≤ a ∧ a ≤ b ∧ b ≤ (data.length : Int) then
    some ((data.drop a.toNat).take (b - a).toNat)
  else none

/-- `binary.LittleEndian.Uint16`: panics on fewer than 2 bytes. -/
def goLEUint16 (b : List Nat) : Option Nat :=
  match b with
  | b0 :: b1 :: _ => some (b0 + 256 * b1)
  | _ => none

/-- `binary.LittleEndian.Uint32`: panics on fewer than 4 bytes. -/
def goLEUint32 (b : List Nat) : Option Nat :=
  match b with
  | b0 :: b1 :: b2 :: b3 :: _ =>
      some (b0 + 256 * b1 + 65536 * b2 + 16777216 * b3)
  | _ => none

/-- Go `int8(b)` for a byte value. -/
def int8OfByte (b : Nat) : Int :=
  if b < 128 then (b : Int) else (b : Int) - 256

/-- Go `int16(v)` for a 16-bit value. -/
def int16OfUint16 (v : Nat) : Int :=
  if v < 32768 then (v : Int) else (v : Int) - 65536

/-- Go `int32(v)` for a 32-bit value. -/
def int32OfUint32 (v : Nat) : Int :=
  if v < 2147483648 then (v : Int) else (v : Int) - 4294967296

/-- The `switch field.Type` of `ParsePDOData` applied to the sliced field
bytes; `none` is a panic inside `binary.LittleEndian` or an index out of
range, `.nil` the zero `any` of an unmatched type. -/
def parsePDOFieldValue (t : String) (fieldData : List Nat) : Option PDOValue :=
  if t = FieldTypeInt8 then
    match fieldData with
    | b :: _ => some (.i8 (int8OfByte b))
    | [] => none
  else if t = FieldTypeUint8 then
    match fieldData with
    | b :: _ => some (.u8 b)
    | [] => none
  else if t = FieldTypeInt16 then
    (goLEUint16 fieldData).map (fun v => .i16 (int16OfUint16 v))
  else if t = FieldTypeUint16 then
    (goLEUint16 fieldData).map .u16
  else if t = FieldTypeInt32 then
    (goLEUint32 fieldData).map (fun v => .i32 (int32OfUint32 v))
  else if t = FieldTypeUint32 then
    (goLEUint32 fieldData).map .u32
  else some .nil

/-- Go map assignment `result[k] = v` on an association list. -/
def mapSet (m : List (String × PDOValue)) (k : String) (v : PDOValue) :
    List (String × PDOValue) :=
  match m with
  | [] => [(k, v)]
  | p :: rest => if p.1 = k then (k, v) :: rest else p :: mapSet rest k v

/-- Go map lookup `result[k]`. -/
def mapGet (m : List (String × PDOValue)) (k : String) : Option PDOValue :=
  match m with
  | [] => none
  | p :: rest => if p.1 = k then some p.2 else mapGet rest k

/-- The field loop of `ParsePDOData`: a field past the end of the payload is
skipped; otherwise its bytes are sliced and decoded, and the value stored
under the field's name. -/
def parsePDODataAux (data : List Nat) :
    List PDOField → List (String × PDOValue) → Option (List (String × PDOValue))
  | [], result => some result
  | field :: rest, result =>
      if (data.length : Int) < field.ByteOffset + field.ByteLength then
        parsePDODataAux data rest result
      else
        (goSlice data field.ByteOffset (field.ByteOffset + field.ByteLength)).bind
          (fun fieldData => (parsePDOFieldValue field.FieldType fieldData).bind
            (fun v => parsePDODataAux data rest (mapSet result field.Name v)))

/-- `PDOMapping.ParsePDOData` over the raw CAN data bytes. -/
def ParsePDOData (m : PDOMapping) (data : List Nat) :
    Option (List (String × PDOValue)) :=
  parsePDODataAux data m.Fields []

/-- The valid field types (`validTypes` in `ParsePDOFieldsFromQuery`). -/
def validPDOFieldTypes : List String :=
  [FieldTypeInt8, FieldTypeUint8, FieldTypeInt16, FieldTypeUint16,
    FieldTypeInt32, FieldTypeUint32]

/-! Spec-side description of field decoding, from the words of §4.5/§3: the
slice `payload[byteOffset : byteOffset+byteLength]` is interpreted as a
little-endian number and cast to the field's signed/unsigned 8/16/32-bit
type. -/

/-- Little-endian value of a byte sequence. -/
def leValue : List Nat → Nat
  | [] => 0
  | b :: rest => b + 256 * leValue rest

/-- Byte width of a primitive field type (spec-side helper). -/
def fieldTypeWidth (t : String) : Nat :=
  if t = FieldTypeInt8 ∨ t = FieldTypeUint8 then 1
  else if t = FieldTypeInt16 ∨ t = FieldTypeUint16 then 2
  else if t = FieldTypeInt32 ∨ t = FieldTypeUint32 then 4
  else 0

/-- The little-endian value `v` of the sliced bytes interpreted as the
field's type (spec-side). -/
def specTypedValue (t : String) (v : Nat) : PDOValue :=
  if t = FieldTypeInt8 then .i8 (int8OfByte (v % 256))
  else if t = FieldTypeUint8 then .u8 (v % 256)
  else if t = FieldTypeInt16 then .i16 (int16OfUint16 (v % 65536))
  else if t = FieldTypeUint16 then .u16 (v % 65536)
  else if t = FieldTypeInt32 then .i32 (int32OfUint32 (v % 4294967296))
  else if t = FieldTypeUint32 then .u32 (v % 4294967296)
  else .nil

/-- Spec-side decoded value of one field: slice
`payload[byteOffset : byteOffset+byteLength]`, little-endian, typed. -/
def specFieldValue (f : PDOField) (data : List Nat) : PDOValue :=
  specTypedValue f.FieldType
    (leValue ((data.drop f.ByteOffset.toNat).take f.ByteLength.toNat))

/-- C6 (counterexample): the schema entry `{x, uint32, offset 0, length 2}`
is valid per §3 (`byteLength ∈ {1,2,4}`, `byteOffset+byteLength ≤ 8`) and
fits an 8-byte payload, yet `ParsePDOData` panics
(`binary.LittleEndian.Uint32` of a 2-byte slice) instead of producing a
typed value for the field. -/
theorem parsePDOData_short_field_panics :
    ParsePDOData ⟨1, "TX", "d", [⟨"x", "uint32", 0, 2⟩]⟩ [1, 2, 3, 4, 5, 6, 7, 8] =
      none ∧
    ((0 : Int) + 2 ≤ 8 ∧ (2 : Int) ∈ ([1, 2, 4] : List Int)) := by
  constructor
  · rfl
  · constructor
    · decide
    · decide

/-- Reading back the key just written. -/
theorem mapGet_mapSet_self (m : List (String × PDOValue)) (k : String) (v : PDOValue) :
    mapGet (mapSet m k v) k = some v := by
  induction m with
  | nil => simp [mapSet, mapGet]
  | cons p rest ih =>
      by_cases h : p.1 = k
      · simp [mapSet, mapGet, h]
      · simp [mapSet, mapGet, h, ih]

/-- Writing one key leaves every other key unchanged. -/
theorem mapGet_mapSet_ne (m : List (String × PDOValue)) (k k' : String) (v : PDOValue)
    (h : k' ≠ k) : mapGet (mapSet m k v) k' = mapGet m k' := by
  have hkk : ¬ k = k' := fun hk => h hk.symm
  induction m with
  | nil =>
      show (if k = k' then some v else (none : Option PDOValue)) = none
      rw [if_neg hkk]
  | cons p rest ih =>
      by_cases hp : p.1 = k
      · have hp' : ¬ p.1 = k' := by rw [hp]; exact hkk
        simp only [mapSet]
        rw [if_pos hp]
        show (if k = k' then some v else mapGet rest k') =
          (if p.1 = k' then some p.2 else mapGet rest k')
        rw [if_neg hkk, if_neg hp']
      · simp only [mapSet]
        rw [if_neg hp]
        show (if p.1 = k' then some p.2 else mapGet (mapSet rest k v) k') =
          (if p.1 = k' then some p.2 else mapGet rest k')
        rw [ih]

/-- The `switch` of `ParsePDOData` computes exactly the spec-side typed
little-endian value whenever the sliced bytes cover the type's width. -/
theorem parsePDOFieldValue_spec (t : String) (fd : List Nat)
    (ht : t ∈ validPDOFieldTypes)
    (hw : fieldTypeWidth t ≤ fd.length)
    (hb : ∀ b ∈ fd, b < 256) :
    parsePDOFieldValue t fd = some (specTypedValue t (leValue fd)) := by
  simp only [validPDOFieldTypes, FieldTypeInt8, FieldTypeUint8, FieldTypeInt16,
    FieldTypeUint16, FieldTypeInt32, FieldTypeUint32, List.mem_cons,
    List.mem_singleton, List.not_mem_nil, or_false] at ht
  rcases ht with rfl | rfl | rfl | rfl | rfl | rfl
  · match fd, hw with
    | b :: rest, _ =>
        have hb0 : b < 256 := hb b (by simp)
        have hmod : (b + 256 * leValue rest) % 256 = b := by omega
        simp [parsePDOFieldValue, specTypedValue, FieldTypeInt8, leValue, hmod]
  · match fd, hw with
    | b :: rest, _ =>
        have hb0 : b < 256 := hb b (by simp)
        have hmod : (b + 256 * leValue rest) % 256 = b := by omega
        simp [parsePDOFieldValue, specTypedValue, FieldTypeInt8, FieldTypeUint8,
          leValue, hmod]
  · match fd, hw with
    | b0 :: b1 :: rest, _ =>
        have h0 : b0 < 256 := hb b0 (by simp)
        have h1 : b1 < 256 := hb b1 (by simp)
        have hmod : (b0 + 256 * (b1 + 256 * leValue rest)) % 65536 = b0 + 256 * b1 := by
          omega
        simp [parsePDOFieldValue, specTypedValue, FieldTypeInt8, FieldTypeUint8,
          FieldTypeInt16, goLEUint16, leValue, hmod]
  · match fd, hw with
    | b0 :: b1 :: rest, _ =>
        have h0 : b0 < 256 := hb b0 (by simp)
        have h1 : b1 < 256 := hb b1 (by simp)
        have hmod : (b0 + 256 * (b1 + 256 * leValue rest)) % 65536 = b0 + 256 * b1 := by
          omega
        simp [parsePDOFieldValue, specTypedValue, FieldTypeInt8, FieldTypeUint8,
          FieldTypeInt16, FieldTypeUint16, goLEUint16, leValue, hmod]
  · match fd, hw with
    | b0 :: b1 :: b2 :: b3 :: rest, _ =>
        have h0 : b0 < 256 := hb b0 (by simp)
        have h1 : b1 < 256 := hb b1 (by simp)
        have h2 : b2 < 256 := hb b2 (by simp)
        have h3 : b3 < 256 := hb b3 (by simp)
        have hmod : (b0 + 256 * (b1 + 256 * (b2 + 256 * (b3 + 256 * leValue rest)))) %
            4294967296 = b0 + 256 * b1 + 65536 * b2 + 16777216 * b3 := by omega
        simp [parsePDOFieldValue, specTypedValue, FieldTypeInt8, FieldTypeUint8,
          FieldTypeInt16, FieldTypeUint16, FieldTypeInt32, goLEUint32, leValue, hmod]
  · match fd, hw with
    | b0 :: b1 :: b2 :: b3 :: rest, _ =>
        have h0 : b0 < 256 := hb b0 (by simp)
        have h1 : b1 < 256 := hb b1 (by simp)
        have h2 : b2 < 256 := hb b2 (by simp)
        have h3 : b3 < 256 := hb b3 (by simp)
        have hmod : (b0 + 256 * (b1 + 256 * (b2 + 256 * (b3 + 256 * leValue rest)))) %
            4294967296 = b0 + 256 * b1 + 65536 * b2 + 16777216 * b3 := by omega
        simp [parsePDOFieldValue, specTypedValue, FieldTypeInt8, FieldTypeUint8,
          FieldTypeInt16, FieldTypeUint16, FieldTypeInt32, FieldTypeUint32,
          goLEUint32, leValue, hmod]

/-- Invariant proof for the field loop of `ParsePDOData`: with well-typed
fields (valid type, non-negative offset/length, length covering the type's
width) and distinct names, the loop never panics, decodes every field that
fits the payload to its spec-side value, and leaves every skipped field
absent from the result map. -/
theorem parsePDODataAux_spec (data : List Nat) (hb : ∀ b ∈ data, b < 256) :
    ∀ (fields : List PDOField) (result : List (String × PDOValue)),
      (∀ f ∈ fields, f.FieldType ∈ validPDOFieldTypes ∧ 0 ≤ f.ByteOffset ∧
        0 ≤ f.ByteLength ∧ (fieldTypeWidth f.FieldType : Int) ≤ f.ByteLength) →
      (fields.map PDOField.Name).Nodup →
      (∀ f ∈ fields, mapGet result f.Name = none) →
      ∃ res, parsePDODataAux data fields result = some res ∧
        (∀ k, (∀ f ∈ fields, f.Name ≠ k) → mapGet res k = mapGet result k) ∧
        ∀ f ∈ fields,
          (f.ByteOffset + f.ByteLength ≤ (data.length : Int) →
            mapGet res f.Name = some (specFieldValue f data)) ∧
          ((data.length : Int) < f.ByteOffset + f.ByteLength →
            mapGet res f.Name = none) := by
  intro fields
  induction fields with
  | nil =>
      intro result _ _ _
      exact ⟨result, rfl, fun k _ => rfl, fun f hf => absurd hf (List.not_mem_nil f)⟩
  | cons field rest ih =>
      intro result hvalid hnodup hnone
      have hvf := hvalid field (List.mem_cons_self field rest)
      have hvrest : ∀ f ∈ rest, f.FieldType ∈ validPDOFieldTypes ∧ 0 ≤ f.ByteOffset ∧
          0 ≤ f.ByteLength ∧ (fieldTypeWidth f.FieldType : Int) ≤ f.ByteLength :=
        fun f hf => hvalid f (List.mem_cons_of_mem field hf)
      rw [List.map_cons, List.nodup_cons] at hnodup
      obtain ⟨hname_nin, hnodup_rest⟩ := hnodup
      have hname_ne : ∀ f ∈ rest, f.Name ≠ field.Name := by
        intro f hf heq
        exact hname_nin (heq ▸ List.mem_map_of_mem PDOField.Name hf)
      by_cases hfit : (data.length : Int) < field.ByteOffset + field.ByteLength
      · obtain ⟨res, hrun, hframe, hrest⟩ := ih result hvrest hnodup_rest
          (fun f hf => hnone f (List.mem_cons_of_mem field hf))
        refine ⟨res, ?_, ?_, ?_⟩
        · simp only [parsePDODataAux]
          rw [if_pos hfit]
          exact hrun
        · intro k hk
          exact hframe k (fun f hf => hk f (List.mem_cons_of_mem field hf))
        · intro f hf
          rcases List.mem_cons.mp hf with rfl | hf'
          · refine ⟨fun hle => absurd hle (by omega), fun _ => ?_⟩
            rw [hframe f.Name hname_ne]
            exact hnone f (List.mem_cons_self f rest)
          · exact hrest f hf'
      · push_neg at hfit
        have h0off : 0 ≤ field.ByteOffset := hvf.2.1
        have h0len : 0 ≤ field.ByteLength := hvf.2.2.1
        have hsliceEq : goSlice data field.ByteOffset
            (field.ByteOffset + field.ByteLength) =
            some ((data.drop field.ByteOffset.toNat).take field.ByteLength.toNat) := by
          simp only [goSlice]
          rw [if_pos ⟨h0off, by omega, hfit⟩]
          have harg : (field.ByteOffset + field.ByteLength - field.ByteOffset).toNat =
              field.ByteLength.toNat := by omega
          rw [harg]
        have hfdlen : ((data.drop field.ByteOffset.toNat).take
            field.ByteLength.toNat).length = field.ByteLength.toNat := by
          simp only [List.length_take, List.length_drop]
          omega
        have hfdsub : ∀ b ∈ (data.drop field.ByteOffset.toNat).take
            field.ByteLength.toNat, b < 256 :=
          fun b hbmem => hb b (List.drop_subset _ data (List.take_subset _ _ hbmem))
        have hwidth : fieldTypeWidth field.FieldType ≤
            ((data.drop field.ByteOffset.toNat).take field.ByteLength.toNat).length := by
          rw [hfdlen]
          omega
        have hval := parsePDOFieldValue_spec field.FieldType _ hvf.1 hwidth hfdsub
        obtain ⟨res, hrun, hframe, hrest⟩ := ih
          (mapSet result field.Name (specFieldValue field data)) hvrest hnodup_rest
          (fun f hf => by
            rw [mapGet_mapSet_ne _ _ _ _ (hname_ne f hf)]
            exact hnone f (List.mem_cons_of_mem field hf))
        refine ⟨res, ?_, ?_, ?_⟩
        · simp only [parsePDODataAux]
          rw [if_neg (by omega), hsliceEq]
          simp only [Option.some_bind]
          rw [hval]
          simp only [Option.some_bind]
          exact hrun
        · intro k hk
          rw [hframe k (fun f hf => hk f (List.mem_cons_of_mem field hf))]
          exact mapGet_mapSet_ne _ _ _ _
            (fun heq => hk field (List.mem_cons_self field rest) heq.symm)
        · intro f hf
          rcases List.mem_cons.mp hf with rfl | hf'
          · refine ⟨fun _ => ?_, fun hlt => absurd hlt (by omega)⟩
            rw [hframe f.Name hname_ne]
            exact mapGet_mapSet_self result f.Name (specFieldValue f data)
          · exact hrest f hf'

/-- C6 (amended): for every schema whose fields have a valid primitive type,
non-negative offset and length, a byteLength at least the type's width
(amendment: the code panics in `binary.LittleEndian` when byteLength is
smaller than the type's width, e.g. uint32 with byteLength 2), and distinct
names, and every byte payload, `ParsePDOData` produces exactly one typed
value per field that fits the payload — the little-endian interpretation of
`payload[byteOffset : byteOffset+byteLength]` as the field's type — and
silently skips (leaves absent, without error) every field that runs past
the end of the payload. -/
theorem ParsePDOData_decodes_c6 (fields : List PDOField) (data : List Nat)
    (num : Int) (dir descr : String)
    (hb : ∀ b ∈ data, b < 256)
    (hvalid : ∀ f ∈ fields, f.FieldType ∈ validPDOFieldTypes ∧ 0 ≤ f.ByteOffset ∧
      0 ≤ f.ByteLength ∧ (fieldTypeWidth f.FieldType : Int) ≤ f.ByteLength)
    (hnodup : (fields.map PDOField.Name).Nodup) :
    ∃ result, ParsePDOData ⟨num, dir, descr, fields⟩ data = some result ∧
      ∀ f ∈ fields,
        (f.ByteOffset + f.ByteLength ≤ (data.length : Int) →
          mapGet result f.Name = some (specFieldValue f data)) ∧
        ((data.length : Int) < f.ByteOffset + f.ByteLength →
          mapGet result f.Name = none) := by
  obtain ⟨res, hrun, _, hres⟩ :=
    parsePDODataAux_spec data hb fields [] hvalid hnodup (fun f _ => rfl)
  exact ⟨res, hrun, hres⟩

/-- Witness for `ParsePDOData_decodes_c6`: the spec's own example — a uint16
field at offset 0 over a payload starting `[0x34, 0x12]` decodes to
`0x1234`; a second int8 field at offset 2 runs past the 2-byte payload and
is skipped. -/
theorem ParsePDOData_decodes_c6_witness :
    (∃ result, ParsePDOData ⟨1, "TX", "q",
        [⟨"statusword", "uint16", 0, 2⟩, ⟨"mode", "int8", 2, 1⟩]⟩ [0x34, 0x12] =
          some result ∧
      ∀ f ∈ [⟨"statusword", "uint16", 0, 2⟩, (⟨"mode", "int8", 2, 1⟩ : PDOField)],
        (f.ByteOffset + f.ByteLength ≤ (([0x34, 0x12] : List Nat).length : Int) →
          mapGet result f.Name = some (specFieldValue f [0x34, 0x12])) ∧
        ((([0x34, 0x12] : List Nat).length : Int) < f.ByteOffset + f.ByteLength →
          mapGet result f.Name = none)) ∧
    ParsePDOData ⟨1, "TX", "q",
        [⟨"statusword", "uint16", 0, 2⟩, ⟨"mode", "int8", 2, 1⟩]⟩ [0x34, 0x12] =
      some [("statusword", .u16 0x1234)] :=
  ⟨ParsePDOData_decodes_c6 [⟨"statusword", "uint16", 0, 2⟩, ⟨"mode", "int8", 2, 1⟩]
      [0x34, 0x12] 1 "TX" "q" (by decide) (by decide) (by decide), rfl⟩

/-! ## Schema construction from query strings (`models.ParsePDOFieldsFromQuery`)

Embedding of the textual field-specification parser
`name:type:offset:length[,...]`.  Strings are `List Char`; `strings.Split`
with a one-character separator, `strings.TrimSpace` and `strconv.Atoi` are
modelled below (`TrimSpace` over the whitespace actually occurring in such
queries; `Atoi`'s 64-bit overflow clamping is immaterial because every
accepted value is range-checked to single digits).  The five distinct
`fmt.Errorf` messages are modelled as an error enumeration. -/

/-- `strings.Split` with a single-character separator. -/
def splitOnChar (sep : Char) : List Char → List (List Char)
  | [] => [[]]
  | c :: rest =>
      if c = sep then [] :: splitOnChar sep rest
      else
        match splitOnChar sep rest with
        | [] => [[c]]
        | h :: t => (c :: h) :: t

/-- `unicode.IsSpace` on the whitespace classes relevant here. -/
def isGoSpace (c : Char) : Bool :=
  c = ' ' || c = '\t' || c = '\n' || c.val = 11 || c.val = 12 || c = '\r' ||
    c.val = 0x85 || c.val = 0xA0

/-- `strings.TrimSpace`. -/
def trimSpace (s : List Char) : List Char :=
  ((s.dropWhile isGoSpace).reverse.dropWhile isGoSpace).reverse

/-- Decimal value of a digit string. -/
def digitsVal (s : List Char) : Nat :=
  s.foldl (fun acc c => acc * 10 + (c.toNat - 48)) 0

/-- A non-empty all-digit string, else `none`. -/
def digitsToNat (s : List Char) : Option Nat :=
  if s = [] then none
  else if s.all (fun c => c.isDigit) then some (digitsVal s) else none

/-- `strconv.Atoi`: optional sign followed by at least one digit. -/
def atoiGo (s : List Char) : Option Int :=
  match s with
  | '+' :: rest => (digitsToNat rest).map (fun n => (n : Int))
  | '-' :: rest => (digitsToNat rest).map (fun n => -(n : Int))
  | _ => (digitsToNat s).map (fun n => (n : Int))

/-- The five `fmt.Errorf` failures of `ParsePDOFieldsFromQuery`:
format (`expected format: name:type:offset:length`), type
(`must be one of: int8, ...`), offset (`must be 0-7`), length
(`must be 1-8`), and `exceedsLimit` =
`field exceeds 8-byte CAN data limit (offset %d + length %d)` — the spec's
`SchemaOutOfRange`. -/
inductive PDOFieldError where
  | invalidDefinition
  | invalidType
  | invalidOffset
  | invalidLength
  | exceedsLimit
deriving DecidableEq

/-- The per-entry validation body of the loop in `ParsePDOFieldsFromQuery`
(after the entry has been split on `:` into exactly four parts). -/
def validatePDOFieldParts (p0 p1 p2 p3 : List Char) : Except PDOFieldError PDOField :=
  let name := trimSpace p0
  let typeStr := trimSpace p1
  let offsetStr := trimSpace p2
  let lengthStr := trimSpace p3
  let isValidType := validPDOFieldTypes.contains (String.mk typeStr)
  if isValidType = false then .error .invalidType
  else
    match atoiGo offsetStr with
    | none => .error .invalidOffset
    | some offset =>
        if offset < 0 ∨ 7 < offset then .error .invalidOffset
        else
          match atoiGo lengthStr with
          | none => .error .invalidLength
          | some length =>
              if length < 1 ∨ 8 < length then .error .invalidLength
              else if 8 < offset + length then .error .exceedsLimit
              else .ok ⟨String.mk name, String.mk typeStr, offset, length⟩

/-- One entry of the comma-separated list: trim, split on `:`, require four
parts, validate. -/
def parsePDOFieldDef (fieldDef : List Char) : Except PDOFieldError PDOField :=
  match splitOnChar ':' (trimSpace fieldDef) with
  | [p0, p1, p2, p3] => validatePDOFieldParts p0 p1 p2 p3
  | _ => .error .invalidDefinition

/-- The entry loop: first failure wins, fields are collected in order. -/
def parsePDOFieldsAux : List (List Char) → Except PDOFieldError (List PDOField)
  | [] => .ok []
  | fd :: rest =>
      match parsePDOFieldDef fd with
      | .error e => .error e
      | .ok f =>
          match parsePDOFieldsAux rest with
          | .error e => .error e
          | .ok fs => .ok (f :: fs)

/-- `models.ParsePDOFieldsFromQuery` (empty query: `nil, nil`). -/
def ParsePDOFieldsFromQuery (queryValue : List Char) :
    Except PDOFieldError (List PDOField) :=
  if queryValue = [] then .ok []
  else parsePDOFieldsAux (splitOnChar ',' queryValue)

/-- C7: for an entry that passes every other validation (four parts, valid
type, offset parsed in 0..7, length parsed in 1..8), schema construction
fails with the `SchemaOutOfRange` error exactly when
`byteOffset + byteLength > 8`, and is accepted exactly when
`byteOffset + byteLength ≤ 8`; the failure is a construction-time one:
at decode time an out-of-range field is skipped without any error. -/
theorem parsePDOFieldDef_schemaOutOfRange_c7
    (fieldDef name typeStr offStr lenStr : List Char) (off len : Int)
    (hsplit : splitOnChar ':' (trimSpace fieldDef) = [name, typeStr, offStr, lenStr])
    (htype : validPDOFieldTypes.contains (String.mk (trimSpace typeStr)) = true)
    (hoff : atoiGo (trimSpace offStr) = some off) (hoffR : 0 ≤ off ∧ off ≤ 7)
    (hlen : atoiGo (trimSpace lenStr) = some len) (hlenR : 1 ≤ len ∧ len ≤ 8)
    (data : List Nat) :
    (parsePDOFieldDef fieldDef = .error .exceedsLimit ↔ 8 < off + len) ∧
    (parsePDOFieldDef fieldDef =
        .ok ⟨String.mk (trimSpace name), String.mk (trimSpace typeStr), off, len⟩ ↔
      off + len ≤ 8) ∧
    ∀ (f : PDOField) (num : Int) (dir descr : String),
      (data.length : Int) < f.ByteOffset + f.ByteLength →
      ParsePDOData ⟨num, dir, descr, [f]⟩ data = some [] := by
  have hred : parsePDOFieldDef fieldDef =
      (if 8 < off + len then .error .exceedsLimit
       else .ok ⟨String.mk (trimSpace name), String.mk (trimSpace typeStr), off, len⟩) := by
    simp only [parsePDOFieldDef, hsplit, validatePDOFieldParts, htype, hoff, hlen]
    rw [if_neg (by simp)]
    rw [if_neg (by omega), if_neg (by omega)]
  refine ⟨?_, ?_, ?_⟩
  · rw [hred]
    by_cases hol : 8 < off + len
    · rw [if_pos hol]
      exact ⟨fun _ => hol, fun _ => rfl⟩
    · rw [if_neg hol]
      exact ⟨fun h => by simp at h, fun h => absurd h hol⟩
  · rw [hred]
    by_cases hol : 8 < off + len
    · rw [if_pos hol]
      exact ⟨fun h => by simp at h, fun _ => absurd hol (by omega)⟩
    · rw [if_neg hol]
      exact ⟨fun _ => by omega, fun _ => rfl⟩
  · intro f num dir descr hlt
    simp only [ParsePDOData, parsePDODataAux]
    rw [if_pos hlt]

/-- Witness for `parsePDOFieldDef_schemaOutOfRange_c7`: `x:uint16:6:4`
(6+4>8) is rejected with the out-of-range error, `x:uint16:4:4` is
accepted. -/
theorem parsePDOFieldDef_schemaOutOfRange_c7_witness :
    parsePDOFieldDef ("x:uint16:6:4").toList = .error .exceedsLimit ∧
    parsePDOFieldDef ("x:uint16:4:4").toList = .ok ⟨"x", "uint16", 4, 4⟩ := by
  constructor
  · exact (parsePDOFieldDef_schemaOutOfRange_c7 ("x:uint16:6:4").toList
      ("x").toList ("uint16").toList ("6").toList ("4").toList 6 4
      (by decide) (by decide) (by decide) (by decide) (by decide) (by decide)
      []).1.mpr (by decide)
  · have h := (parsePDOFieldDef_schemaOutOfRange_c7 ("x:uint16:4:4").toList
      ("x").toList ("uint16").toList ("4").toList ("4").toList 4 4
      (by decide) (by decide) (by decide) (by decide) (by decide) (by decide)
      []).2.1.mpr (by decide)
    exact h.trans rfl

/-- C8 (code bug): `ParsePDOFieldsFromQuery` accepts the entry
`x:uint16:0:3` with byteLength 3, although `byteLength ∈ {1,2,4}` per the
schema model and the `PDOField.ByteLength` doc comment
(`Number of bytes (1, 2, or 4)`): the validation only checks `1..8`. -/
theorem parsePDOFieldsFromQuery_accepts_length3 :
    ParsePDOFieldsFromQuery ("x:uint16:0:3").toList =
      .ok [⟨"x", "uint16", 0, 3⟩] ∧
    (3 : Int) ∉ ([1, 2, 4] : List Int) := by
  constructor
  · rfl
  · decide

/-! ## Statistics sampler text parsing (`can.parseIPOutput`)

Embedding of `backend/internal/can/stats_collector.go`'s `parseIPOutput`,
which walks the lines of `ip -details -statistics link show` output.  The
regular expressions used there all have the shape
`literal(class+)` (or two such captures); their leftmost-match semantics is
implemented directly.  `strconv` calls whose errors the code discards
evaluate to the Go zero value on malformed text.  `%.1f` formatting of the
reported sample point is modelled with exact rational rounding (round half
to even), which agrees with Go on the short decimal fractions `ip`
prints. -/

/-- `models.SocketCANStats`, restricted to the fields `parseIPOutput` can
set (timestamp and interface name are stamped later by `collect`). -/
structure SocketCANStats where
  State : String
  MTU : Int
  QueueLength : Int
  Bitrate : Int
  SamplePoint : String
  TimeQuanta : Int
  PropSeg : Int
  PhaseSeg1 : Int
  PhaseSeg2 : Int
  SJW : Int
  BRP : Int
  RestartMS : Int
  ControllerMode : String
  BusState : String
  BusErrorCounter : Int
  RXErrorCounter : Int
  TXErrorCounter : Int
  RXPackets : Nat
  RXBytes : Nat
  RXErrors : Nat
  RXDropped : Nat
  RXOverErrors : Nat
  TXPackets : Nat
  TXBytes : Nat
  TXErrors : Nat
  TXDropped : Nat
  TXCarrierErrors : Nat
  Collisions : Nat
  BusOffRestarts : Nat
  ArbitrationLost : Nat
  ErrorWarning : Nat
  ErrorPassive : Nat
  BusOff : Nat
deriving DecidableEq

/-- The Go zero value `models.SocketCANStats{}`. -/
def initSocketCANStats : SocketCANStats :=
  { State := "", MTU := 0, QueueLength := 0, Bitrate := 0, SamplePoint := "",
    TimeQuanta := 0, PropSeg := 0, PhaseSeg1 := 0, PhaseSeg2 := 0, SJW := 0,
    BRP := 0, RestartMS := 0, ControllerMode := "", BusState := "",
    BusErrorCounter := 0, RXErrorCounter := 0, TXErrorCounter := 0,
    RXPackets := 0, RXBytes := 0, RXErrors := 0, RXDropped := 0,
    RXOverErrors := 0, TXPackets := 0, TXBytes := 0, TXErrors := 0,
    TXDropped := 0, TXCarrierErrors := 0, Collisions := 0,
    BusOffRestarts := 0, ArbitrationLost := 0, ErrorWarning := 0,
    ErrorPassive := 0, BusOff := 0 }

/-- `strings.Contains`. -/
def containsSub (needle : List Char) : List Char → Bool
  | [] => needle.isEmpty
  | c :: rest => needle.isPrefixOf (c :: rest) || containsSub needle rest

/-- Leftmost match of the regex `lit(cls+)`: the first position where `lit`
is followed by at least one `cls` character; the capture is the maximal
`cls` run. -/
def findCapture (lit : List Char) (cls : Char → Bool) : List Char → Option (List Char)
  | [] => none
  | c :: rest =>
      let s := c :: rest
      let cap := (s.drop lit.length).takeWhile cls
      if lit.isPrefixOf s && !cap.isEmpty then some cap
      else findCapture lit cls rest

/-- Leftmost match of `lit1(cls+)lit2(cls+)` (the `berr-counter` pattern). -/
def findCapture2 (lit1 : List Char) (cls : Char → Bool) (lit2 : List Char) :
    List Char → Option (List Char × List Char)
  | [] => none
  | c :: rest =>
      let s := c :: rest
      let after1 := s.drop lit1.length
      let cap1 := after1.takeWhile cls
      let after2 := after1.drop cap1.length
      let after3 := after2.drop lit2.length
      let cap2 := after3.takeWhile cls
      if lit1.isPrefixOf s && !cap1.isEmpty && lit2.isPrefixOf after2 && !cap2.isEmpty then
        some (cap1, cap2)
      else findCapture2 lit1 cls lit2 rest

/-- Leftmost match of `<([^>]+)>` (the interface-flags pattern). -/
def findAngleCapture : List Char → Option (List Char)
  | [] => none
  | c :: rest =>
      let cap := rest.takeWhile (fun d => d ≠ '>')
      if c = '<' && !cap.isEmpty && (rest.drop cap.length).take 1 = ['>'] then some cap
      else findAngleCapture rest

/-- The character class `[\d.]`. -/
def isDigitDot (c : Char) : Bool :=
  c.isDigit || c = '.'

/-- The character class `[A-Z-]`. -/
def isUpperDash (c : Char) : Bool :=
  ('A' ≤ c && c ≤ 'Z') || c = '-'

/-- `strings.Fields`. -/
def fieldsGo (s : List Char) : List (List Char) :=
  (s.splitOnP isGoSpace).filter (fun w => !w.isEmpty)

/-- `strconv.Atoi` with the error discarded (`v, _ := ...`): 0 on error. -/
def atoiOrZero (s : List Char) : Int :=
  (atoiGo s).getD 0

/-- `strconv.ParseUint` with the error discarded: 0 on error. -/
def parseUintGo (s : List Char) : Nat :=
  (digitsToNat s).getD 0

/-- `strconv.ParseFloat` on a `[\d.]+` capture, as an exact rational;
`none` on Go's syntax errors (no digits, several dots). -/
def parseFloatQ (s : List Char) : Option ℚ :=
  match splitOnChar '.' s with
  | [ip] => (digitsToNat ip).map (fun n => (n : ℚ))
  | [ip, fp] =>
      if ip.isEmpty && fp.isEmpty then none
      else if ip.all (fun c => c.isDigit) && fp.all (fun c => c.isDigit) then
        some ((digitsVal ip : ℚ) + (digitsVal fp : ℚ) / (10 : ℚ) ^ fp.length)
      else none
  | _ => none

/-- Round half to even. -/
def roundHalfEven (q : ℚ) : Int :=
  let f := ⌊q⌋
  if q - f < 1 / 2 then f
  else if 1 / 2 < q - f then f + 1
  else if f % 2 = 0 then f else f + 1

/-- `fmt.Sprintf("%.1f%%", samplePoint*100)` with
`samplePoint, _ := strconv.ParseFloat(capture, 64)`. -/
def formatSamplePoint (cap : List Char) : String :=
  let q : ℚ := (parseFloatQ cap).getD 0
  let n10 := roundHalfEven (q * 100 * 10)
  Nat.repr (n10 / 10).toNat ++ "." ++ Nat.repr (n10 % 10).toNat ++ "%"

/-- Line-0 block: interface flags, `mtu`, `qlen`. -/
def ipLine0Update (line : List Char) (s : SocketCANStats) : SocketCANStats :=
  let s1 := match findAngleCapture line with
    | some flags =>
        { s with State := if containsSub ("UP").toList flags then "UP" else "DOWN" }
    | none => s
  let s2 := match findCapture ("mtu ").toList Char.isDigit line with
    | some d => { s1 with MTU := atoiOrZero d }
    | none => s1
  match findCapture ("qlen ").toList Char.isDigit line with
  | some d => { s2 with QueueLength := atoiOrZero d }
  | none => s2

/-- `bitrate`/`sample-point` block. -/
def ipBitrateUpdate (line : List Char) (s : SocketCANStats) : SocketCANStats :=
  if containsSub ("bitrate").toList line then
    let s1 := match findCapture ("bitrate ").toList Char.isDigit line with
      | some d => { s with Bitrate := atoiOrZero d }
      | none => s
    match findCapture ("sample-point ").toList isDigitDot line with
    | some d => { s1 with SamplePoint := formatSamplePoint d }
    | none => s1
  else s

/-- `can state`/`berr-counter`/`restart-ms` block. -/
def ipCanStateUpdate (line : List Char) (s : SocketCANStats) : SocketCANStats :=
  if containsSub ("can state").toList line || containsSub ("can ").toList line then
    let s1 := match findCapture ("state ").toList isUpperDash line with
      | some d => { s with BusState := String.mk d }
      | none => s
    let s2 := match findCapture2 ("berr-counter tx ").toList Char.isDigit
        (" rx ").toList line with
      | some p => { s1 with TXErrorCounter := atoiOrZero p.1,
                            RXErrorCounter := atoiOrZero p.2 }
      | none => s1
    match findCapture ("restart-ms ").toList Char.isDigit line with
    | some d => { s2 with RestartMS := atoiOrZero d }
    | none => s2
  else s

/-- `tq …​ prop-seg …` timing block. -/
def ipTimingUpdate (line : List Char) (s : SocketCANStats) : SocketCANStats :=
  if containsSub ("tq").toList line && containsSub ("prop-seg").toList line then
    let s1 := match findCapture ("tq ").toList Char.isDigit line with
      | some d => { s with TimeQuanta := atoiOrZero d }
      | none => s
    let s2 := match findCapture ("prop-seg ").toList Char.isDigit line with
      | some d => { s1 with PropSeg := atoiOrZero d }
      | none => s1
    let s3 := match findCapture ("phase-seg1 ").toList Char.isDigit line with
      | some d => { s2 with PhaseSeg1 := atoiOrZero d }
      | none => s2
    let s4 := match findCapture ("phase-seg2 ").toList Char.isDigit line with
      | some d => { s3 with PhaseSeg2 := atoiOrZero d }
      | none => s3
    let s5 := match findCapture ("sjw ").toList Char.isDigit line with
      | some d => { s4 with SJW := atoiOrZero d }
      | none => s4
    match findCapture ("brp ").toList Char.isDigit line with
    | some d => { s5 with BRP := atoiOrZero d }
    | none => s5
  else s

/-- `LOOPBACK`/`LISTEN-ONLY` controller-mode block. -/
def ipModeUpdate (line : List Char) (s : SocketCANStats) : SocketCANStats :=
  if containsSub ("LOOPBACK").toList line then { s with ControllerMode := "LOOPBACK" }
  else if containsSub ("LISTEN-ONLY").toList line then
    { s with ControllerMode := "LISTEN-ONLY" }
  else s

/-- `RX:` header block: numbers are on the next (raw) line. -/
def ipRxUpdate (lines : List (List Char)) (i : Nat) (line : List Char)
    (s : SocketCANStats) : SocketCANStats :=
  if containsSub ("RX:").toList line then
    if i + 1 < lines.length then
      let nextLine := fieldsGo (lines.getD (i + 1) [])
      if 6 ≤ nextLine.length then
        { s with RXBytes := parseUintGo (nextLine.getD 0 []),
                 RXPackets := parseUintGo (nextLine.getD 1 []),
                 RXErrors := parseUintGo (nextLine.getD 2 []),
                 RXDropped := parseUintGo (nextLine.getD 3 []),
                 RXOverErrors := parseUintGo (nextLine.getD 4 []) }
      else s
    else s
  else s

/-- `TX:` header block. -/
def ipTxUpdate (lines : List (List Char)) (i : Nat) (line : List Char)
    (s : SocketCANStats) : SocketCANStats :=
  if containsSub ("TX:").toList line then
    if i + 1 < lines.length then
      let nextLine := fieldsGo (lines.getD (i + 1) [])
      if 6 ≤ nextLine.length then
        { s with TXBytes := parseUintGo (nextLine.getD 0 []),
                 TXPackets := parseUintGo (nextLine.getD 1 []),
                 TXErrors := parseUintGo (nextLine.getD 2 []),
                 TXDropped := parseUintGo (nextLine.getD 3 []),
                 TXCarrierErrors := parseUintGo (nextLine.getD 4 []),
                 Collisions := parseUintGo (nextLine.getD 5 []) }
      else s
    else s
  else s

/-- One `Contains`-guarded counter block (`re-started`, `bus-error`,
`arbitration-lost`, `error-warning`, `error-passive`, `bus-off` all share
this shape). -/
def ipCounterBlock (needle lit : List Char) (line : List Char)
    (set : SocketCANStats → List Char → SocketCANStats) (s : SocketCANStats) :
    SocketCANStats :=
  if containsSub needle line then
    match findCapture lit Char.isDigit line with
    | some d => set s d
    | none => s
  else s

/-- `re-started`, `bus-error`, `arbitration-lost`, `error-warning`,
`error-passive`, `bus-off` counter blocks. -/
def ipErrorStatsUpdate (line : List Char) (s : SocketCANStats) : SocketCANStats :=
  let s1 := ipCounterBlock ("re-started").toList ("re-started ").toList line
    (fun t d => { t with BusOffRestarts := parseUintGo d }) s
  let s2 := ipCounterBlock ("bus-error").toList ("bus-error ").toList line
    (fun t d => { t with BusErrorCounter := atoiOrZero d }) s1
  let s3 := ipCounterBlock ("arbitration-lost").toList ("arbitration-lost ").toList line
    (fun t d => { t with ArbitrationLost := parseUintGo d }) s2
  let s4 := ipCounterBlock ("error-warning").toList ("error-warning ").toList line
    (fun t d => { t with ErrorWarning := parseUintGo d }) s3
  let s5 := ipCounterBlock ("error-passive").toList ("error-passive ").toList line
    (fun t d => { t with ErrorPassive := parseUintGo d }) s4
  ipCounterBlock ("bus-off").toList ("bus-off ").toList line
    (fun t d => { t with BusOff := parseUintGo d }) s5

/-- One iteration of the line loop of `parseIPOutput`. -/
def processIPLine (lines : List (List Char)) (i : Nat) (s : SocketCANStats) :
    SocketCANStats :=
  let line := trimSpace (lines.getD i [])
  let s0 := if i = 0 then ipLine0Update line s else s
  let s1 := ipBitrateUpdate line s0
  let s2 := ipCanStateUpdate line s1
  let s3 := ipTimingUpdate line s2
  let s4 := ipModeUpdate line s3
  let s5 := ipRxUpdate lines i line s4
  let s6 := ipTxUpdate lines i line s5
  ipErrorStatsUpdate line s6

/-- `parseIPOutput`: split on newlines, fold the line handler. -/
def parseIPOutput (output : List Char) : SocketCANStats :=
  let lines := splitOnChar '\n' output
  (List.range lines.length).foldl (fun s i => processIPLine lines i s)
    initSocketCANStats

/-- Line-0 handling never touches `SamplePoint`. -/
theorem ipLine0Update_samplePoint (line : List Char) (s : SocketCANStats) :
    (ipLine0Update line s).SamplePoint = s.SamplePoint := by
  unfold ipLine0Update
  cases findAngleCapture line <;>
    cases findCapture ("mtu ").toList Char.isDigit line <;>
      cases findCapture ("qlen ").toList Char.isDigit line <;> rfl

/-- `SamplePoint` is only ever written when the `sample-point` pattern
matches the line. -/
theorem ipBitrateUpdate_samplePoint (line : List Char) (s : SocketCANStats)
    (h : findCapture ("sample-point ").toList isDigitDot line = none) :
    (ipBitrateUpdate line s).SamplePoint = s.SamplePoint := by
  simp only [ipBitrateUpdate, h]
  cases hb : containsSub ("bitrate").toList line
  · rfl
  · cases findCapture ("bitrate ").toList Char.isDigit line <;> rfl

/-- The CAN-state block never touches `SamplePoint`. -/
theorem ipCanStateUpdate_samplePoint (line : List Char) (s : SocketCANStats) :
    (ipCanStateUpdate line s).SamplePoint = s.SamplePoint := by
  unfold ipCanStateUpdate
  cases hc : (containsSub ("can state").toList line || containsSub ("can ").toList line)
  · rfl
  · cases findCapture ("state ").toList isUpperDash line <;>
      cases findCapture2 ("berr-counter tx ").toList Char.isDigit (" rx ").toList line <;>
        cases findCapture ("restart-ms ").toList Char.isDigit line <;> rfl

/-- The timing block never touches `SamplePoint`. -/
theorem ipTimingUpdate_samplePoint (line : List Char) (s : SocketCANStats) :
    (ipTimingUpdate line s).SamplePoint = s.SamplePoint := by
  unfold ipTimingUpdate
  cases hc : (containsSub ("tq").toList line && containsSub ("prop-seg").toList line)
  · rfl
  · cases findCapture ("tq ").toList Char.isDigit line <;>
      cases findCapture ("prop-seg ").toList Char.isDigit line <;>
        cases findCapture ("phase-seg1 ").toList Char.isDigit line <;>
          cases findCapture ("phase-seg2 ").toList Char.isDigit line <;>
            cases findCapture ("sjw ").toList Char.isDigit line <;>
              cases findCapture ("brp ").toList Char.isDigit line <;> rfl

/-- The controller-mode block never touches `SamplePoint`. -/
theorem ipModeUpdate_samplePoint (line : List Char) (s : SocketCANStats) :
    (ipModeUpdate line s).SamplePoint = s.SamplePoint := by
  unfold ipModeUpdate
  cases h1 : containsSub ("LOOPBACK").toList line
  · cases h2 : containsSub ("LISTEN-ONLY").toList line <;> rfl
  · rfl

/-- The RX block never touches `SamplePoint`. -/
theorem ipRxUpdate_samplePoint (lines : List (List Char)) (i : Nat)
    (line : List Char) (s : SocketCANStats) :
    (ipRxUpdate lines i line s).SamplePoint = s.SamplePoint := by
  unfold ipRxUpdate
  split
  · split
    · simp [apply_ite SocketCANStats.SamplePoint]
    · rfl
  · rfl

/-- The TX block never touches `SamplePoint`. -/
theorem ipTxUpdate_samplePoint (lines : List (List Char)) (i : Nat)
    (line : List Char) (s : SocketCANStats) :
    (ipTxUpdate lines i line s).SamplePoint = s.SamplePoint := by
  unfold ipTxUpdate
  split
  · split
    · simp [apply_ite SocketCANStats.SamplePoint]
    · rfl
  · rfl

/-- A counter block whose setter leaves `SamplePoint` alone leaves it
alone. -/
theorem ipCounterBlock_samplePoint (needle lit line : List Char)
    (set : SocketCANStats → List Char → SocketCANStats) (s : SocketCANStats)
    (hset : ∀ t d, (set t d).SamplePoint = t.SamplePoint) :
    (ipCounterBlock needle lit line set s).SamplePoint = s.SamplePoint := by
  unfold ipCounterBlock
  cases hc : containsSub needle line
  · rfl
  · cases findCapture lit Char.isDigit line
    · rfl
    · exact hset s _

/-- The error-counter blocks never touch `SamplePoint`. -/
theorem ipErrorStatsUpdate_samplePoint (line : List Char) (s : SocketCANStats) :
    (ipErrorStatsUpdate line s).SamplePoint = s.SamplePoint := by
  simp only [ipErrorStatsUpdate]
  rw [ipCounterBlock_samplePoint _ _ _
      (fun t d => { t with BusOff := parseUintGo d }) _ (fun t d => rfl),
    ipCounterBlock_samplePoint _ _ _
      (fun t d => { t with ErrorPassive := parseUintGo d }) _ (fun t d => rfl),
    ipCounterBlock_samplePoint _ _ _
      (fun t d => { t with ErrorWarning := parseUintGo d }) _ (fun t d => rfl),
    ipCounterBlock_samplePoint _ _ _
      (fun t d => { t with ArbitrationLost := parseUintGo d }) _ (fun t d => rfl),
    ipCounterBlock_samplePoint _ _ _
      (fun t d => { t with BusErrorCounter := atoiOrZero d }) _ (fun t d => rfl),
    ipCounterBlock_samplePoint _ _ _
      (fun t d => { t with BusOffRestarts := parseUintGo d }) _ (fun t d => rfl)]

/-- One line-loop iteration preserves `SamplePoint` when its line has no
`sample-point` match. -/
theorem processIPLine_samplePoint (lines : List (List Char)) (i : Nat)
    (s : SocketCANStats)
    (h : findCapture ("sample-point ").toList isDigitDot
      (trimSpace (lines.getD i [])) = none) :
    (processIPLine lines i s).SamplePoint = s.SamplePoint := by
  unfold processIPLine
  rw [ipErrorStatsUpdate_samplePoint, ipTxUpdate_samplePoint, ipRxUpdate_samplePoint,
    ipModeUpdate_samplePoint, ipTimingUpdate_samplePoint, ipCanStateUpdate_samplePoint,
    ipBitrateUpdate_samplePoint _ _ h]
  split
  · exact ipLine0Update_samplePoint _ _
  · rfl

/-- A realistic `ip -details -statistics link show` output in which no
`sample-point` is reported but the bit-timing segments are. -/
def c9Output : List Char :=
  ("3: can0: <NOARP,UP,LOWER_UP,ECHO> mtu 16 qlen 10\n    can state ERROR-ACTIVE (berr-counter tx 0 rx 0) restart-ms 0\n    bitrate 500000\n    tq 125 prop-seg 6 phase-seg1 7 phase-seg2 2 sjw 1 brp 4").toList

/-- C9 (counterexample): on a sample whose `ip` output reports the segment
lengths (`propSeg 6, phaseSeg1 7, phaseSeg2 2`) but no sample-point, the
parser leaves `SamplePoint` empty; it does not derive
`(1+6+7)/(1+6+7+2) = 0.875` (which the code would render `"87.5%"`). -/
theorem parseIPOutput_samplePoint_counterexample :
    (parseIPOutput c9Output).PropSeg = 6 ∧
    (parseIPOutput c9Output).PhaseSeg1 = 7 ∧
    (parseIPOutput c9Output).PhaseSeg2 = 2 ∧
    (parseIPOutput c9Output).SamplePoint = "" ∧
    (1 + 6 + 7 : ℚ) / (1 + 6 + 7 + 2) = 875 / 1000 ∧
    (parseIPOutput c9Output).SamplePoint ≠ "87.5%" := by
  exact ⟨by decide, by decide, by decide, by decide, by norm_num, by decide⟩

/-- C9 (amended): the sampler never derives the sample-point percentage
from the segment lengths.  For every `ip` output in which no line matches
the `sample-point ([\d.]+)` pattern, the parsed statistics carry an empty
`SamplePoint` — the field is only ever set from a directly reported
value. -/
theorem parseIPOutput_samplePoint_c9 (output : List Char)
    (hnone : ∀ line ∈ splitOnChar '\n' output,
      findCapture ("sample-point ").toList isDigitDot (trimSpace line) = none) :
    (parseIPOutput output).SamplePoint = "" := by
  have hline : ∀ i, findCapture ("sample-point ").toList isDigitDot
      (trimSpace ((splitOnChar '\n' output).getD i [])) = none := by
    intro i
    by_cases hi : i < (splitOnChar '\n' output).length
    · rw [List.getD_eq_getElem _ _ hi]
      exact hnone _ (List.getElem_mem hi)
    · rw [List.getD_eq_default _ _ (le_of_not_lt hi)]
      rfl
  have hfold : ∀ (idxs : List Nat) (s : SocketCANStats),
      (idxs.foldl (fun s i => processIPLine (splitOnChar '\n' output) i s) s).SamplePoint =
        s.SamplePoint := by
    intro idxs
    induction idxs with
    | nil => intro s; rfl
    | cons j js ih =>
        intro s
        simp only [List.foldl_cons]
        rw [ih, processIPLine_samplePoint _ _ _ (hline j)]
  unfold parseIPOutput
  rw [hfold]
  rfl

/-- Witness for `parseIPOutput_samplePoint_c9` at the concrete output
without a reported sample-point. -/
theorem parseIPOutput_samplePoint_c9_witness :
    (parseIPOutput c9Output).SamplePoint = "" :=
  parseIPOutput_samplePoint_c9 c9Output (by decide)
